import Mathlib

/-!
Shallow embedding of the road-network pathfinding core of the repository
(file `pathfinding` revision with direction and level rules: `parseLevel`,
`parsePath`, `calculateDistance`, `levelsCanConnect`, `addEdge`,
`buildRoadGraph`, `pointToSegmentDistance`, `findNearestNode`,
`calculatePath`).

Modelling conventions:
* JS numbers are modelled as real numbers (`ℝ`).  All JS arithmetic in this
  file is exact real arithmetic; the source never relies on overflow or NaN.
* A node id is the string `"x,z"` built from `Math.round` of the two
  coordinates.  Integer pairs are in bijection with those strings, so a node
  id is modelled as `ℤ × ℤ`.  `Math.round x` in JS is `⌊x + 1/2⌋` (half-up,
  including for negative numbers; the `-0` case stringifies as `"0"`, i.e.
  the integer `0`).
* A JS object used as a dictionary is modelled as an insertion-ordered
  association list (first binding wins on lookup, new keys are appended).
* `Array.prototype.sort` (stable in the engines this page targets) with the
  comparator `a.fScore - b.fScore` followed by `shift()` is modelled by a
  stable insertion sort by `fScore` followed by taking the head.
* The `while (openSet.length > 0)` loop is modelled with an explicit fuel
  parameter; exhausted fuel returns the same value as an emptied frontier.
  `graphFuel` is a crude upper bound on the number of loop iterations
  (each iteration pops one frontier entry; entries are pushed only when a
  fresh `(node, level)` key is visited, so the total number of pops is at
  most `startLevels + (number of keys) * (total edge count)`, which is far
  below `(E + N + 2)^2`).  All theorems below about failing searches hold
  for every fuel value, and successful concrete runs terminate naturally
  well within this bound.
* Feature properties are modelled with one optional field per property name
  the source reads (`Path`, `oneway`, `Level`, `level`, `speed`, `Speed`,
  `Type`, `type`; `Type` is a Lean keyword so that field is spelled
  `Type'`).  Numeric `Level` values reach the source through `parseInt`,
  so levels are carried as their decimal strings.
-/

namespace MKB

noncomputable section

/-- Node identifier: the pair of rounded coordinates (models the id string
interpolated from rounded x and z). -/
abbrev NodeId : Type := ℤ × ℤ

/-- JS `Math.round`: round half toward positive infinity. -/
def jsRound (r : ℝ) : ℤ := ⌊r + 1/2⌋

/-- The node id of a raw coordinate pair. -/
def nodeIdOf (c : ℝ × ℝ) : NodeId := (jsRound c.1, jsRound c.2)

/-- Directed edge record ( `{ toId, level, cost }` in the source). -/
structure Edge where
  toId : NodeId
  level : ℤ
  cost : ℝ

/-- Graph node record ( `{ x, z, edges }` in the source). -/
structure Node where
  x : ℝ
  z : ℝ
  edges : List Edge

/-- The road graph: JS object keyed by node id, modelled as an
insertion-ordered association list. -/
abbrev Graph : Type := List (NodeId × Node)

/-- Road segment retained for nearest-segment queries
( `{ start, end, startId, endId, roadType }` in the source). -/
structure Segment where
  segStart : ℝ × ℝ
  segEnd : ℝ × ℝ
  startId : NodeId
  endId : NodeId
  roadType : String

/-- Feature properties: one optional field per property name the source
reads.  `Type'` models the JS property `Type`. -/
structure Props where
  Path : Option String := none
  oneway : Option String := none
  Level : Option String := none
  level : Option String := none
  speed : Option ℝ := none
  Speed : Option ℝ := none
  Type' : Option String := none
  type : Option String := none

/-- A GeoJSON feature as consumed by `buildRoadGraph`: geometry type,
coordinate list and properties. -/
structure Feature where
  geomType : String
  coords : List (ℝ × ℝ)
  props : Props

/-- Result of `parsePath`. -/
structure PathDir where
  forward : Bool
  backward : Bool
deriving DecidableEq

/-- JS `toUpperCase` for the ASCII strings this data uses. -/
def jsToUpper (s : String) : String := ⟨s.data.map Char.toUpper⟩

/-- JS `toLowerCase` for the ASCII strings this data uses. -/
def jsToLower (s : String) : String := ⟨s.data.map Char.toLower⟩

/-- JS `trim`: strip whitespace from both ends. -/
def jsTrim (s : String) : String :=
  ⟨((s.data.dropWhile Char.isWhitespace).reverse.dropWhile Char.isWhitespace).reverse⟩

/-- Parse the `Path` attribute: B = both, BE = forward, EB = backward
(default string is B when both `Path` and `oneway` are absent). -/
def parsePath (props : Props) : PathDir :=
  let path := jsToUpper ((props.Path.orElse fun _ => props.oneway).getD ("B"))
  { forward := path == "B" || path == "BE"
    backward := path == "B" || path == "EB" }

/-- Digits-to-number accumulator for the `parseInt` model. -/
def digitsToNat : List Char → ℕ → ℕ
  | [], acc => acc
  | c :: cs, acc => digitsToNat cs (acc * 10 + (c.toNat - 48))

/-- Model of JS `parseInt(s, 10)`: trim, optional sign, then the longest
leading run of decimal digits; `none` models the NaN result. -/
def jsParseInt (s : String) : Option ℤ :=
  let cs := (jsTrim s).toList
  let core : List Char → Option ℤ := fun l =>
    let ds := l.takeWhile Char.isDigit
    if ds.isEmpty then none else some (digitsToNat ds 0 : ℤ)
  match cs with
  | '-' :: rest => (core rest).map fun n => -n
  | '+' :: rest => core rest
  | _ => core cs

/-- Parse the level from properties ( handles absence, `"NA"` and
non-numeric text, defaulting to 0 ). -/
def parseLevel (props : Props) : ℤ :=
  match props.Level.orElse fun _ => props.level with
  | none => 0
  | some v => if v = "NA" then 0 else (jsParseInt v).getD 0

/-- Euclidean distance between two coordinate pairs. -/
def calculateDistance (c1 c2 : ℝ × ℝ) : ℝ :=
  Real.sqrt ((c1.1 - c2.1) * (c1.1 - c2.1) + (c1.2 - c2.2) * (c1.2 - c2.2))

/-- Two levels can connect when they differ by at most one. -/
def levelsCanConnect (l1 l2 : ℤ) : Bool := decide (|l1 - l2| ≤ 1)

/-- Lookup of a node by id (first binding wins, as for a JS object). -/
def getNode : Graph → NodeId → Option Node
  | [], _ => none
  | (i, n) :: rest, target => if i = target then some n else getNode rest target

/-- The edge list of a node id, empty when the node is absent. -/
def edgesOfNode (g : Graph) (i : NodeId) : List Edge :=
  match getNode g i with
  | some n => n.edges
  | none => []

/-- Append an edge to the edge array of the node with the given id
(models `graph[fromId].edges.push(...)`). -/
def pushEdge : Graph → NodeId → Edge → Graph
  | [], _, _ => []
  | (i, n) :: rest, target, e =>
    if i = target then (i, { n with edges := n.edges ++ [e] }) :: rest
    else (i, n) :: pushEdge rest target e

/-- Create the node entry for an id when it is absent (new JS object keys
are appended in insertion order). -/
def ensureNode (g : Graph) (i : NodeId) (c : ℝ × ℝ) : Graph :=
  if (getNode g i).isSome then g else g ++ [(i, ⟨c.1, c.2, []⟩)]

/-- Add a directed edge to the graph, ensuring both endpoint nodes exist. -/
def addEdge (g : Graph) (fromId toId : NodeId) (lvl : ℤ) (cost : ℝ)
    (fromCoord toCoord : ℝ × ℝ) : Graph :=
  pushEdge (ensureNode (ensureNode g fromId fromCoord) toId toCoord) fromId
    ⟨toId, lvl, cost⟩

/-- The consecutive coordinate pairs of a polyline (the segments indexed by
`i, i+1` in the source loop). -/
def consecutivePairs : List (ℝ × ℝ) → List ((ℝ × ℝ) × (ℝ × ℝ))
  | a :: b :: rest => (a, b) :: consecutivePairs (b :: rest)
  | _ => []

/-- The mutable globals `roadGraph` and `roadSegments` bundled as a state. -/
structure BuildState where
  graph : Graph
  segments : List Segment

/-- Process one polyline segment: record it in the segment list and add the
directed edges allowed by the parsed direction. -/
def processSegment (roadType : String) (pd : PathDir) (lvl : ℤ) (speed : ℝ)
    (st : BuildState) (seg : (ℝ × ℝ) × (ℝ × ℝ)) : BuildState :=
  let dist := calculateDistance seg.1 seg.2
  let cost := dist / speed
  let startId := nodeIdOf seg.1
  let endId := nodeIdOf seg.2
  let segments := st.segments ++ [⟨seg.1, seg.2, startId, endId, roadType⟩]
  let g1 := if pd.forward then addEdge st.graph startId endId lvl cost seg.1 seg.2
            else st.graph
  let g2 := if pd.backward then addEdge g1 endId startId lvl cost seg.2 seg.1
            else g1
  ⟨g2, segments⟩

/-- The lowercased road classification of a feature. -/
def roadTypeOf (props : Props) : String :=
  jsToLower ((props.Type'.orElse fun _ => props.type).getD (""))

/-- The clamped speed of a feature: `Math.max(1, parseFloat(speed ?? Speed
?? 50))`. -/
def speedOf (props : Props) : ℝ :=
  max 1 ((props.speed.orElse fun _ => props.Speed).getD 50)

/-- Process one feature: skip non-LineString geometry, degenerate
coordinate lists and walkways, then process every segment. -/
def processFeature (st : BuildState) (f : Feature) : BuildState :=
  if f.geomType ≠ "LineString" then st
  else if f.coords.length < 2 then st
  else
    let roadType := roadTypeOf f.props
    if roadType = "walkway" ∨ roadType = "walkways" then st
    else
      (consecutivePairs f.coords).foldl
        (processSegment roadType (parsePath f.props) (parseLevel f.props)
          (speedOf f.props)) st

/-- Build the road graph and segment list from the features.  The source
first resets both globals ( `roadGraph = {}`, `roadSegments = []` ), so the
prior state is discarded. -/
def buildRoadGraph (prior : BuildState) (features : List Feature) : BuildState :=
  let _ := prior
  features.foldl processFeature ⟨[], []⟩

/-- Distance from a point to a segment, clamped to the segment's
endpoints. -/
def pointToSegmentDistance (p a b : ℝ × ℝ) : ℝ :=
  let vx := b.1 - a.1
  let vz := b.2 - a.2
  let wx := p.1 - a.1
  let wz := p.2 - a.2
  let c1 := vx * wx + vz * wz
  if c1 ≤ 0 then calculateDistance p a
  else
    let c2 := vx * vx + vz * vz
    if c2 ≤ c1 then calculateDistance p b
    else
      let t := c1 / c2
      calculateDistance p (a.1 + t * vx, a.2 + t * vz)

/-- The snap radius of `findNearestNode` ( `MAX_DISTANCE` in the source). -/
def MAX_DISTANCE : ℝ := 30

/-- One step of the `bestSegment` scan: keep the first segment that
strictly improves the best distance and lies within the snap radius.  The
source initialises `bestDist` to `Infinity`, so for an empty accumulator
the strict-improvement conjunct is vacuously true. -/
def bestSegmentStep (target : ℝ × ℝ) (filt : Segment → Bool)
    (acc : Option (Segment × ℝ)) (seg : Segment) : Option (Segment × ℝ) :=
  if filt seg = false then acc
  else
    let d := pointToSegmentDistance target seg.segStart seg.segEnd
    match acc with
    | none => if d ≤ MAX_DISTANCE then some (seg, d) else none
    | some (b, bd) =>
      if d < bd ∧ d ≤ MAX_DISTANCE then some (seg, d) else some (b, bd)

/-- Best segment within the snap radius matching the filter. -/
def bestSegment (target : ℝ × ℝ) (segs : List Segment)
    (filt : Segment → Bool) : Option (Segment × ℝ) :=
  segs.foldl (bestSegmentStep target filt) none

/-- Ramp test used for snapping preference. -/
def isRamp (t : String) : Bool := t == "ramp"

/-- Highway test used for snapping preference. -/
def isHighway (t : String) : Bool := t == "highway"

/-- One step of the fallback pure nearest-node scan over the node table. -/
def nearestNodeStep (target : ℝ × ℝ) (acc : Option (NodeId × ℝ))
    (entry : NodeId × Node) : Option (NodeId × ℝ) :=
  let d := calculateDistance (entry.2.x, entry.2.z) target
  match acc with
  | none => if d ≤ MAX_DISTANCE then some (entry.1, d) else none
  | some (b, bd) =>
    if d < bd ∧ d ≤ MAX_DISTANCE then some (entry.1, d) else some (b, bd)

/-- Fallback nearest node within the snap radius. -/
def nearestNodeFallback (g : Graph) (target : ℝ × ℝ) : Option NodeId :=
  (g.foldl (nearestNodeStep target) none).map fun p => p.1

/-- Find the nearest road node to a coordinate: three preference tiers over
the segment list (no ramp and no highway, then no ramp, then anything),
snapping to the closer endpoint of the chosen segment, with a pure node
search as a final fallback. -/
def findNearestNode (g : Graph) (segs : List Segment) (target : ℝ × ℝ) :
    Option NodeId :=
  let t1 := bestSegment target segs fun s => !isRamp s.roadType && !isHighway s.roadType
  let t2 := match t1 with
    | some b => some b
    | none => bestSegment target segs fun s => !isRamp s.roadType
  let t3 := match t2 with
    | some b => some b
    | none => bestSegment target segs fun _ => true
  match t3 with
  | some (seg, _) =>
    if calculateDistance target seg.segStart ≤ calculateDistance target seg.segEnd
    then some seg.startId else some seg.endId
  | none => nearestNodeFallback g target

/-- Search state key `(nodeId, level)` as interpolated into the JS key
string. -/
abbrev StateKey : Type := NodeId × ℤ

/-- Frontier entry of the A* open set. -/
structure Frontier where
  nodeId : NodeId
  level : ℤ
  gScore : ℝ
  fScore : ℝ

/-- Lookup in an association list keyed by search states. -/
def alistFind {β : Type} : List (StateKey × β) → StateKey → Option β
  | [], _ => none
  | (k, v) :: rest, target => if k = target then some v else alistFind rest target

/-- Overwrite-or-append update of an association list keyed by search
states (models assignment to a JS object property). -/
def alistSet {β : Type} : List (StateKey × β) → StateKey → β → List (StateKey × β)
  | [], target, v => [(target, v)]
  | (k, w) :: rest, target, v =>
    if k = target then (k, v) :: rest else (k, w) :: alistSet rest target v

/-- Stable insertion of a frontier entry into a list sorted by ascending
`fScore` (equal scores keep the existing entry first). -/
def insertByF (x : Frontier) : List Frontier → List Frontier
  | [] => [x]
  | y :: rest => if x.fScore < y.fScore then x :: y :: rest else y :: insertByF x rest

/-- Stable sort by ascending `fScore`, as performed by the stable JS
`Array.prototype.sort` with comparator `a.fScore - b.fScore`. -/
def sortByF (l : List Frontier) : List Frontier :=
  l.foldl (fun acc x => insertByF x acc) []

/-- First-occurrence deduplication, as produced by spreading a JS `Set`. -/
def firstDedup (l : List ℤ) : List ℤ :=
  l.foldl (fun acc x => if x ∈ acc then acc else acc ++ [x]) []

/-- The A* heuristic: straight-line distance to the destination divided by
80 (a rough time estimate), 0 for an unknown node. -/
def heuristic (g : Graph) (endCoord : ℝ × ℝ) (i : NodeId) : ℝ :=
  match getNode g i with
  | some n => calculateDistance (n.x, n.z) endCoord / 80
  | none => 0

/-- Accumulator of the inner edge-expansion loop: the score map, the
predecessor map and the entries pushed onto the open set. -/
structure ExpandAcc where
  gs : List (StateKey × ℝ)
  cf : List (StateKey × StateKey)
  pushes : List Frontier

/-- Expansion of one outgoing edge from the current state: skip when the
levels cannot connect, when the destination state is already visited, or
when the tentative score does not improve; otherwise record the score and
predecessor and push the destination state. -/
def expandEdge (g : Graph) (endCoord : ℝ × ℝ) (visited : List StateKey)
    (curId : NodeId) (curLevel : ℤ) (curG : ℝ) (acc : ExpandAcc)
    (e : Edge) : ExpandAcc :=
  if levelsCanConnect curLevel e.level = false then acc
  else
    let tentativeG := curG + e.cost
    let edgeKey : StateKey := (e.toId, e.level)
    if edgeKey ∈ visited then acc
    else
      let doUpdate : ExpandAcc :=
        ⟨alistSet acc.gs edgeKey tentativeG,
         alistSet acc.cf edgeKey (curId, curLevel),
         acc.pushes ++
           [⟨e.toId, e.level, tentativeG,
             tentativeG + heuristic g endCoord e.toId⟩]⟩
      match alistFind acc.gs edgeKey with
      | some prevG => if prevG ≤ tentativeG then acc else doUpdate
      | none => doUpdate

/-- Walk the predecessor map from the final state back to a start state,
collecting node coordinates (the source `while (cur)` loop; the fuel is at
least the map size plus one, which covers every acyclic chain). -/
def reconstructPath (g : Graph) (cf : List (StateKey × StateKey)) :
    ℕ → StateKey → List (ℝ × ℝ)
  | 0, _ => []
  | fuel + 1, key =>
    let here := match getNode g key.1 with
      | some n => [(n.x, n.z)]
      | none => []
    here ++ (match alistFind cf key with
      | some prev => reconstructPath g cf fuel prev
      | none => [])

/-- Sum of Euclidean distances between consecutive path coordinates. -/
def pathDistance : List (ℝ × ℝ) → ℝ
  | a :: b :: rest => calculateDistance a b + pathDistance (b :: rest)
  | _ => 0

/-- The route result record `{ path, totalCost, distance, message }`. -/
structure RouteResult where
  path : List (ℝ × ℝ)
  totalCost : ℝ
  distance : ℝ
  message : String

/-- The `while (openSet.length > 0)` A* loop: sort the open set by
`fScore`, pop the head, skip visited states, finish when the destination
node is reached, otherwise expand the outgoing edges. -/
def aStarLoop (g : Graph) (endId : NodeId) (endCoord : ℝ × ℝ) :
    ℕ → List Frontier → List (StateKey × ℝ) → List (StateKey × StateKey) →
    List StateKey → RouteResult
  | 0, _, _, _, _ => ⟨[], 0, 0, "No path found."⟩
  | fuel + 1, openSet, gs, cf, visited =>
    match sortByF openSet with
    | [] => ⟨[], 0, 0, "No path found."⟩
    | cur :: rest =>
      let key : StateKey := (cur.nodeId, cur.level)
      if key ∈ visited then aStarLoop g endId endCoord fuel rest gs cf visited
      else
        let visited1 := visited ++ [key]
        if cur.nodeId = endId then
          let path := (reconstructPath g cf (cf.length + 1) key).reverse
          ⟨path, cur.gScore, pathDistance path, "Route found."⟩
        else
          match getNode g cur.nodeId with
          | none => aStarLoop g endId endCoord fuel rest gs cf visited1
          | some node =>
            let acc := node.edges.foldl
              (expandEdge g endCoord visited1 cur.nodeId cur.level cur.gScore)
              ⟨gs, cf, []⟩
            aStarLoop g endId endCoord fuel (rest ++ acc.pushes) acc.gs acc.cf
              visited1

/-- Fuel bound for the A* loop (see the modelling notes above). -/
def graphFuel (g : Graph) : ℕ :=
  let e := (g.map fun p => p.2.edges.length).sum
  (e + g.length + 2) * (e + g.length + 2)

/-- A* pathfinding with level connectivity over `(node, level)` states. -/
def calculatePath (g : Graph) (startNodeId endNodeId : NodeId) : RouteResult :=
  match getNode g startNodeId, getNode g endNodeId with
  | some startNode, some endNode =>
    let endCoord := (endNode.x, endNode.z)
    let startLevels := firstDedup (startNode.edges.map fun e => e.level)
    if startLevels.isEmpty then ⟨[], 0, 0, "Start node has no outgoing edges."⟩
    else
      aStarLoop g endNodeId endCoord (graphFuel g)
        (startLevels.map fun l =>
          ⟨startNodeId, l, 0, heuristic g endCoord startNodeId⟩)
        (startLevels.map fun l => ((startNodeId, l), 0)) [] []
  | _, _ => ⟨[], 0, 0, "Start or end node not found."⟩

/-! ### Characterization of graph construction -/

/-- The directed edges a single polyline segment contributes to the edge
list of node `j`: a forward edge when `j` is the rounded start, a backward
edge when `j` is the rounded end. -/
def segEdges (pd : PathDir) (lvl : ℤ) (speed : ℝ) (seg : (ℝ × ℝ) × (ℝ × ℝ))
    (j : NodeId) : List Edge :=
  (if pd.forward = true ∧ j = nodeIdOf seg.1 then
    [⟨nodeIdOf seg.2, lvl, calculateDistance seg.1 seg.2 / speed⟩] else [])
  ++ (if pd.backward = true ∧ j = nodeIdOf seg.2 then
    [⟨nodeIdOf seg.1, lvl, calculateDistance seg.1 seg.2 / speed⟩] else [])

/-- The edges a whole feature contributes to the edge list of node `j`. -/
def featureEdges (f : Feature) (j : NodeId) : List Edge :=
  if f.geomType ≠ "LineString" then []
  else if f.coords.length < 2 then []
  else if roadTypeOf f.props = "walkway" ∨ roadTypeOf f.props = "walkways" then []
  else
    (consecutivePairs f.coords).flatMap fun seg =>
      segEdges (parsePath f.props) (parseLevel f.props) (speedOf f.props) seg j

/-- The edges a feature list contributes to the edge list of node `j`. -/
def expectedEdges (fs : List Feature) (j : NodeId) : List Edge :=
  fs.flatMap fun f => featureEdges f j

/-- The segments a feature contributes to the segment list. -/
def featureSegments (f : Feature) : List Segment :=
  if f.geomType ≠ "LineString" then []
  else if f.coords.length < 2 then []
  else if roadTypeOf f.props = "walkway" ∨ roadTypeOf f.props = "walkways" then []
  else
    (consecutivePairs f.coords).map fun seg =>
      ⟨seg.1, seg.2, nodeIdOf seg.1, nodeIdOf seg.2, roadTypeOf f.props⟩

lemma getNode_append (g1 g2 : Graph) (j : NodeId) :
    getNode (g1 ++ g2) j = ((getNode g1 j).orElse fun _ => getNode g2 j) := by
  induction g1 with
  | nil => simp [getNode]
  | cons p rest ih =>
    obtain ⟨i, n⟩ := p
    by_cases h : i = j
    · simp [getNode, h]
    · simp [getNode, h, ih]

lemma getNode_ensureNode (g : Graph) (i : NodeId) (c : ℝ × ℝ) (j : NodeId) :
    getNode (ensureNode g i c) j =
      match getNode g j with
      | some n => some n
      | none => if i = j then some ⟨c.1, c.2, []⟩ else none := by
  unfold ensureNode
  cases hgi : getNode g i with
  | some m =>
    rw [if_pos (by simp [hgi])]
    cases hj : getNode g j with
    | some n => simp [hj]
    | none =>
      by_cases hij : i = j
      · subst hij; rw [hgi] at hj; cases hj
      · simp [hj, hij]
  | none =>
    rw [if_neg (by simp [hgi]), getNode_append]
    cases hj : getNode g j with
    | some n => simp [hj]
    | none =>
      by_cases hij : i = j
      · subst hij; simp [hj, getNode]
      · simp [hj, getNode, hij]

lemma getNode_ensureNode_isSome_mono (g : Graph) (i : NodeId) (c : ℝ × ℝ)
    (j : NodeId) (h : (getNode g j).isSome) :
    (getNode (ensureNode g i c) j).isSome := by
  rw [getNode_ensureNode]
  cases hj : getNode g j with
  | some n => simp
  | none => rw [hj] at h; simp at h

lemma getNode_ensureNode_self_isSome (g : Graph) (i : NodeId) (c : ℝ × ℝ) :
    (getNode (ensureNode g i c) i).isSome := by
  rw [getNode_ensureNode]
  cases hj : getNode g i with
  | some n => simp
  | none => simp

lemma edgesOfNode_ensureNode (g : Graph) (i : NodeId) (c : ℝ × ℝ) (j : NodeId) :
    edgesOfNode (ensureNode g i c) j = edgesOfNode g j := by
  unfold edgesOfNode
  rw [getNode_ensureNode]
  cases hj : getNode g j with
  | some n => rfl
  | none => by_cases hij : i = j <;> simp [hij]

lemma getNode_pushEdge (g : Graph) (t : NodeId) (e : Edge) (j : NodeId) :
    getNode (pushEdge g t e) j =
      if j = t then
        (getNode g j).map fun n => { n with edges := n.edges ++ [e] }
      else getNode g j := by
  induction g with
  | nil => by_cases h : j = t <;> simp [pushEdge, getNode, h]
  | cons p rest ih =>
    obtain ⟨i, n⟩ := p
    by_cases hit : i = t
    · subst hit
      by_cases hij : i = j
      · subst hij; simp [pushEdge, getNode]
      · have : ¬ j = i := fun h => hij h.symm
        simp [pushEdge, getNode, hij, this]
    · by_cases hij : i = j
      · subst hij
        have hne : ¬ i = t := hit
        simp [pushEdge, getNode, hne, fun h : i = t => hit h]
      · simp [pushEdge, getNode, hit, hij, ih]

lemma edgesOfNode_pushEdge (g : Graph) (t : NodeId) (e : Edge) (j : NodeId)
    (ht : (getNode g t).isSome) :
    edgesOfNode (pushEdge g t e) j =
      edgesOfNode g j ++ if j = t then [e] else [] := by
  unfold edgesOfNode
  rw [getNode_pushEdge]
  by_cases hj : j = t
  · subst hj
    cases hg : getNode g j with
    | some n => simp
    | none => rw [hg] at ht; simp at ht
  · simp [hj]

lemma edgesOfNode_addEdge (g : Graph) (fromId toId : NodeId) (lvl : ℤ)
    (cost : ℝ) (fc tc : ℝ × ℝ) (j : NodeId) :
    edgesOfNode (addEdge g fromId toId lvl cost fc tc) j =
      edgesOfNode g j ++ if j = fromId then [(⟨toId, lvl, cost⟩ : Edge)] else [] := by
  unfold addEdge
  have h2 : (getNode (ensureNode (ensureNode g fromId fc) toId tc) fromId).isSome :=
    getNode_ensureNode_isSome_mono _ _ _ _ (getNode_ensureNode_self_isSome g fromId fc)
  rw [edgesOfNode_pushEdge _ _ _ _ h2, edgesOfNode_ensureNode, edgesOfNode_ensureNode]

lemma edgesOfNode_processSegment (rt : String) (pd : PathDir) (lvl : ℤ)
    (speed : ℝ) (st : BuildState) (seg : (ℝ × ℝ) × (ℝ × ℝ)) (j : NodeId) :
    edgesOfNode (processSegment rt pd lvl speed st seg).graph j =
      edgesOfNode st.graph j ++ segEdges pd lvl speed seg j := by
  unfold processSegment segEdges
  cases hf : pd.forward <;> cases hb : pd.backward <;>
    simp [hf, hb, edgesOfNode_addEdge, List.append_assoc]

lemma edgesOfNode_foldl_processSegment (rt : String) (pd : PathDir) (lvl : ℤ)
    (speed : ℝ) (segsL : List ((ℝ × ℝ) × (ℝ × ℝ))) (st : BuildState)
    (j : NodeId) :
    edgesOfNode ((segsL.foldl (processSegment rt pd lvl speed) st).graph) j =
      edgesOfNode st.graph j ++
        segsL.flatMap fun seg => segEdges pd lvl speed seg j := by
  induction segsL generalizing st with
  | nil => simp
  | cons s rest ih =>
    simp only [List.foldl_cons, List.flatMap_cons]
    rw [ih, edgesOfNode_processSegment, List.append_assoc]

lemma edgesOfNode_processFeature (st : BuildState) (f : Feature) (j : NodeId) :
    edgesOfNode (processFeature st f).graph j =
      edgesOfNode st.graph j ++ featureEdges f j := by
  unfold processFeature featureEdges
  by_cases h1 : f.geomType ≠ "LineString"
  · simp [h1]
  · by_cases h2 : f.coords.length < 2
    · simp [h1, h2]
    · by_cases h3 : roadTypeOf f.props = "walkway" ∨ roadTypeOf f.props = "walkways"
      · simp [h1, h2, h3]
      · simp only [h1, h2, h3, if_false, if_neg]
        exact edgesOfNode_foldl_processSegment _ _ _ _ _ _ _

/-- Complete characterization of the edges of the built graph: node `j`
carries exactly the edges its features dictate, in processing order. -/
theorem build_edges (prior : BuildState) (fs : List Feature) (j : NodeId) :
    edgesOfNode (buildRoadGraph prior fs).graph j = expectedEdges fs j := by
  unfold buildRoadGraph expectedEdges
  have main : ∀ (l : List Feature) (st : BuildState),
      edgesOfNode (l.foldl processFeature st).graph j =
        edgesOfNode st.graph j ++ l.flatMap fun f => featureEdges f j := by
    intro l
    induction l with
    | nil => simp
    | cons f rest ih =>
      intro st
      simp only [List.foldl_cons, List.flatMap_cons]
      rw [ih, edgesOfNode_processFeature, List.append_assoc]
  rw [main]
  simp [edgesOfNode, getNode]

lemma segments_processSegment (rt : String) (pd : PathDir) (lvl : ℤ)
    (speed : ℝ) (st : BuildState) (seg : (ℝ × ℝ) × (ℝ × ℝ)) :
    (processSegment rt pd lvl speed st seg).segments =
      st.segments ++ [⟨seg.1, seg.2, nodeIdOf seg.1, nodeIdOf seg.2, rt⟩] := by
  unfold processSegment
  cases pd.forward <;> cases pd.backward <;> rfl

lemma segments_foldl_processSegment (rt : String) (pd : PathDir) (lvl : ℤ)
    (speed : ℝ) (segsL : List ((ℝ × ℝ) × (ℝ × ℝ))) (st : BuildState) :
    (segsL.foldl (processSegment rt pd lvl speed) st).segments =
      st.segments ++ segsL.map fun seg =>
        (⟨seg.1, seg.2, nodeIdOf seg.1, nodeIdOf seg.2, rt⟩ : Segment) := by
  induction segsL generalizing st with
  | nil => simp
  | cons s rest ih =>
    simp only [List.foldl_cons, List.map_cons]
    rw [ih, segments_processSegment, List.append_assoc]
    rfl

lemma segments_processFeature (st : BuildState) (f : Feature) :
    (processFeature st f).segments = st.segments ++ featureSegments f := by
  unfold processFeature featureSegments
  by_cases h1 : f.geomType ≠ "LineString"
  · simp [h1]
  · by_cases h2 : f.coords.length < 2
    · simp [h1, h2]
    · by_cases h3 : roadTypeOf f.props = "walkway" ∨ roadTypeOf f.props = "walkways"
      · simp [h1, h2, h3]
      · simp only [h1, h2, h3, if_false, if_neg]
        exact segments_foldl_processSegment _ _ _ _ _ _

/-- Complete characterization of the built segment list: every segment of
every non-excluded LineString feature is recorded, regardless of
directionality. -/
theorem build_segments (prior : BuildState) (fs : List Feature) :
    (buildRoadGraph prior fs).segments = fs.flatMap featureSegments := by
  unfold buildRoadGraph
  have main : ∀ (l : List Feature) (st : BuildState),
      (l.foldl processFeature st).segments = st.segments ++ l.flatMap featureSegments := by
    intro l
    induction l with
    | nil => simp
    | cons f rest ih =>
      intro st
      simp only [List.foldl_cons, List.flatMap_cons]
      rw [ih, segments_processFeature, List.append_assoc]
  rw [main]
  rfl

/-! ### Geometry and rounding lemmas -/

lemma calculateDistance_nonneg (c1 c2 : ℝ × ℝ) : 0 ≤ calculateDistance c1 c2 :=
  Real.sqrt_nonneg _

lemma calculateDistance_self (c : ℝ × ℝ) : calculateDistance c c = 0 := by
  simp [calculateDistance]

lemma calculateDistance_symm (c1 c2 : ℝ × ℝ) :
    calculateDistance c1 c2 = calculateDistance c2 c1 := by
  unfold calculateDistance
  ring_nf

lemma calculateDistance_pos (c1 c2 : ℝ × ℝ) (h : c1 ≠ c2) :
    0 < calculateDistance c1 c2 := by
  apply Real.sqrt_pos.mpr
  have hor : c1.1 ≠ c2.1 ∨ c1.2 ≠ c2.2 := by
    by_contra hc
    push_neg at hc
    exact h (Prod.ext hc.1 hc.2)
  rcases hor with h1 | h2
  · have hp : 0 < (c1.1 - c2.1) * (c1.1 - c2.1) :=
      mul_self_pos.mpr (sub_ne_zero.mpr h1)
    nlinarith [mul_self_nonneg (c1.2 - c2.2)]
  · have hp : 0 < (c1.2 - c2.2) * (c1.2 - c2.2) :=
      mul_self_pos.mpr (sub_ne_zero.mpr h2)
    nlinarith [mul_self_nonneg (c1.1 - c2.1)]

lemma calculateDistance_eq_complex_abs (c1 c2 : ℝ × ℝ) :
    calculateDistance c1 c2 = Complex.abs ⟨c1.1 - c2.1, c1.2 - c2.2⟩ := by
  rw [Complex.abs_apply, Complex.normSq_mk, calculateDistance]

lemma calculateDistance_triangle (a b c : ℝ × ℝ) :
    calculateDistance a c ≤ calculateDistance a b + calculateDistance b c := by
  rw [calculateDistance_eq_complex_abs, calculateDistance_eq_complex_abs,
    calculateDistance_eq_complex_abs]
  have h : (⟨a.1 - c.1, a.2 - c.2⟩ : ℂ) =
      (⟨a.1 - b.1, a.2 - b.2⟩ : ℂ) + ⟨b.1 - c.1, b.2 - c.2⟩ := by
    apply Complex.ext <;> simp
  rw [h]
  exact Complex.abs.add_le _ _

lemma jsRound_eq (r : ℝ) (n : ℤ) (h1 : (n : ℝ) ≤ r + 1/2)
    (h2 : r + 1/2 < (n : ℝ) + 1) : jsRound r = n := by
  unfold jsRound
  exact Int.floor_eq_iff.mpr ⟨h1, h2⟩

lemma jsRound_intCast (n : ℤ) : jsRound ((n : ℝ)) = n :=
  jsRound_eq _ _ (by norm_num) (by norm_num)

lemma nodeIdOf_intCast (a b : ℤ) : nodeIdOf (((a : ℝ)), ((b : ℝ))) = (a, b) := by
  simp [nodeIdOf, jsRound_intCast]

/-! ### List helper lemmas -/

lemma mem_insertByF (x y : Frontier) (l : List Frontier) :
    y ∈ insertByF x l ↔ y = x ∨ y ∈ l := by
  induction l with
  | nil => simp [insertByF]
  | cons z rest ih =>
    unfold insertByF
    by_cases h : x.fScore < z.fScore
    · simp [h]
    · simp only [h, if_false, List.mem_cons, ih]
      tauto

lemma mem_sortByF (y : Frontier) (l : List Frontier) :
    y ∈ sortByF l ↔ y ∈ l := by
  unfold sortByF
  have main : ∀ (l acc : List Frontier),
      (y ∈ l.foldl (fun acc x => insertByF x acc) acc ↔ y ∈ acc ∨ y ∈ l) := by
    intro l
    induction l with
    | nil => simp
    | cons z rest ih =>
      intro acc
      simp only [List.foldl_cons, ih, mem_insertByF, List.mem_cons]
      tauto
  simp [main]

lemma sortByF_eq_nil_iff (l : List Frontier) : sortByF l = [] ↔ l = [] := by
  constructor
  · intro h
    cases l with
    | nil => rfl
    | cons x rest =>
      have : x ∈ sortByF (x :: rest) := (mem_sortByF _ _).mpr (by simp)
      rw [h] at this
      cases this
  · intro h; subst h; rfl

lemma mem_firstDedup (x : ℤ) (l : List ℤ) : x ∈ firstDedup l ↔ x ∈ l := by
  unfold firstDedup
  have main : ∀ (l acc : List ℤ),
      (x ∈ l.foldl (fun acc y => if y ∈ acc then acc else acc ++ [y]) acc ↔
        x ∈ acc ∨ x ∈ l) := by
    intro l
    induction l with
    | nil => simp
    | cons z rest ih =>
      intro acc
      by_cases h : z ∈ acc
      · simp only [List.foldl_cons, h, if_true, ih, List.mem_cons]
        constructor
        · rintro (ha | hr)
          · exact Or.inl ha
          · exact Or.inr (Or.inr hr)
        · rintro (ha | hz | hr)
          · exact Or.inl ha
          · exact Or.inl (hz ▸ h)
          · exact Or.inr hr
      · simp only [List.foldl_cons, h, if_false, ih, List.mem_append,
          List.mem_singleton, List.mem_cons]
        tauto
  simp [main]

lemma firstDedup_eq_nil_iff (l : List ℤ) : firstDedup l = [] ↔ l = [] := by
  constructor
  · intro h
    cases l with
    | nil => rfl
    | cons x rest =>
      have : x ∈ firstDedup (x :: rest) := (mem_firstDedup _ _).mpr (by simp)
      rw [h] at this
      cases this
  · intro h; subst h; rfl

/-! ### A* loop invariants -/

lemma expandEdge_pushes_sound (g : Graph) (ec : ℝ × ℝ) (vis : List StateKey)
    (ci : NodeId) (cl : ℤ) (cg : ℝ) (acc : ExpandAcc) (e : Edge) (fr : Frontier)
    (h : fr ∈ (expandEdge g ec vis ci cl cg acc e).pushes) :
    fr ∈ acc.pushes ∨
      (levelsCanConnect cl e.level = true ∧
        fr = ⟨e.toId, e.level, cg + e.cost, cg + e.cost + heuristic g ec e.toId⟩) := by
  unfold expandEdge at h
  by_cases h1 : levelsCanConnect cl e.level = false
  · rw [if_pos h1] at h; exact Or.inl h
  · rw [if_neg h1] at h
    have h1' : levelsCanConnect cl e.level = true := by
      cases hb : levelsCanConnect cl e.level
      · exact absurd hb h1
      · rfl
    by_cases h2 : ((e.toId, e.level) : StateKey) ∈ vis
    · rw [if_pos h2] at h; exact Or.inl h
    · rw [if_neg h2] at h
      cases hf : alistFind acc.gs (e.toId, e.level) with
      | some prevG =>
        rw [hf] at h
        dsimp only at h
        by_cases h3 : prevG ≤ cg + e.cost
        · rw [if_pos h3] at h; exact Or.inl h
        · rw [if_neg h3] at h
          simp only [List.mem_append, List.mem_singleton] at h
          rcases h with h | h
          · exact Or.inl h
          · exact Or.inr ⟨h1', h⟩
      | none =>
        rw [hf] at h
        dsimp only at h
        simp only [List.mem_append, List.mem_singleton] at h
        rcases h with h | h
        · exact Or.inl h
        · exact Or.inr ⟨h1', h⟩

lemma expand_foldl_pushes_sound (g : Graph) (ec : ℝ × ℝ) (vis : List StateKey)
    (ci : NodeId) (cl : ℤ) (cg : ℝ) (edges : List Edge) (acc : ExpandAcc)
    (fr : Frontier)
    (h : fr ∈ (edges.foldl (expandEdge g ec vis ci cl cg) acc).pushes) :
    fr ∈ acc.pushes ∨
      ∃ e ∈ edges, levelsCanConnect cl e.level = true ∧
        fr = ⟨e.toId, e.level, cg + e.cost, cg + e.cost + heuristic g ec e.toId⟩ := by
  induction edges generalizing acc with
  | nil => exact Or.inl h
  | cons e rest ih =>
    rw [List.foldl_cons] at h
    rcases ih _ h with h1 | ⟨e1, he1, hl, hfr⟩
    · rcases expandEdge_pushes_sound g ec vis ci cl cg acc e fr h1 with h2 | ⟨hl, hfr⟩
      · exact Or.inl h2
      · exact Or.inr ⟨e, by simp, hl, hfr⟩
    · exact Or.inr ⟨e1, List.mem_cons_of_mem _ he1, hl, hfr⟩

/-- Generic failure lemma for the A* loop: if a predicate on search states
holds for the whole open set, is closed under legal edge transitions and
excludes the destination node, the loop reports that no path was found (for
every fuel value). -/
lemma aStarLoop_no_path (g : Graph) (endId : NodeId) (ec : ℝ × ℝ)
    (P : StateKey → Prop)
    (Hclosed : ∀ a l e, P (a, l) → e ∈ edgesOfNode g a →
      levelsCanConnect l e.level = true → P (e.toId, e.level))
    (Hend : ∀ a l, P (a, l) → a ≠ endId) :
    ∀ (fuel : ℕ) (openSet : List Frontier) gs cf visited,
      (∀ fr ∈ openSet, P (fr.nodeId, fr.level)) →
      aStarLoop g endId ec fuel openSet gs cf visited = ⟨[], 0, 0, "No path found."⟩ := by
  intro fuel
  induction fuel with
  | zero => intro openSet gs cf visited _; rfl
  | succ n ih =>
    intro openSet gs cf visited H
    cases hs : sortByF openSet with
    | nil =>
      simp only [aStarLoop, hs]
    | cons cur rest =>
      have hcur : cur ∈ openSet := (mem_sortByF _ _).mp (by rw [hs]; simp)
      have hrest : ∀ x ∈ rest, P (x.nodeId, x.level) := fun x hx =>
        H x ((mem_sortByF _ _).mp (by rw [hs]; exact List.mem_cons_of_mem _ hx))
      have hPcur : P (cur.nodeId, cur.level) := H cur hcur
      have hne : ¬ cur.nodeId = endId := Hend _ _ hPcur
      simp only [aStarLoop, hs]
      by_cases hv : ((cur.nodeId, cur.level) : StateKey) ∈ visited
      · rw [if_pos hv]
        exact ih rest gs cf visited hrest
      · rw [if_neg hv, if_neg hne]
        cases hg : getNode g cur.nodeId with
        | none =>
          exact ih rest gs cf _ hrest
        | some node =>
          apply ih
          intro fr hfr
          rcases List.mem_append.mp hfr with h1 | h2
          · exact hrest fr h1
          · rcases expand_foldl_pushes_sound g ec _ _ _ _ _ _ _ h2 with h3 | ⟨e, he, hl, hfr'⟩
            · cases h3
            · have hmem : e ∈ edgesOfNode g cur.nodeId := by
                unfold edgesOfNode
                rw [hg]
                exact he
              have := Hclosed cur.nodeId cur.level e hPcur hmem hl
              rw [hfr']
              exact this

/-! ### Unpacking edge membership -/

lemma mem_segEdges (pd : PathDir) (lvl : ℤ) (speed : ℝ)
    (seg : (ℝ × ℝ) × (ℝ × ℝ)) (j : NodeId) (e : Edge) :
    e ∈ segEdges pd lvl speed seg j ↔
      (pd.forward = true ∧ j = nodeIdOf seg.1 ∧
        e = ⟨nodeIdOf seg.2, lvl, calculateDistance seg.1 seg.2 / speed⟩) ∨
      (pd.backward = true ∧ j = nodeIdOf seg.2 ∧
        e = ⟨nodeIdOf seg.1, lvl, calculateDistance seg.1 seg.2 / speed⟩) := by
  unfold segEdges
  by_cases h1 : pd.forward = true ∧ j = nodeIdOf seg.1 <;>
    by_cases h2 : pd.backward = true ∧ j = nodeIdOf seg.2 <;>
      simp [h1, h2] <;> tauto

lemma mem_featureEdges (f : Feature) (j : NodeId) (e : Edge) :
    e ∈ featureEdges f j ↔
      (f.geomType = "LineString" ∧ ¬ f.coords.length < 2 ∧
        ¬ (roadTypeOf f.props = "walkway" ∨ roadTypeOf f.props = "walkways") ∧
        ∃ seg ∈ consecutivePairs f.coords,
          e ∈ segEdges (parsePath f.props) (parseLevel f.props)
            (speedOf f.props) seg j) := by
  unfold featureEdges
  by_cases h1 : f.geomType ≠ "LineString"
  · simp [h1]
  · push_neg at h1
    by_cases h2 : f.coords.length < 2
    · simp [h1, h2]
    · by_cases h3 : roadTypeOf f.props = "walkway" ∨ roadTypeOf f.props = "walkways"
      · simp [h1, h2, h3]
      · simp [h1, h2, h3]

lemma mem_expectedEdges (fs : List Feature) (j : NodeId) (e : Edge) :
    e ∈ expectedEdges fs j ↔ ∃ f ∈ fs, e ∈ featureEdges f j := by
  unfold expectedEdges
  exact List.mem_flatMap

/-! ### Presence and closure invariants of the built graph -/

lemma getNode_pushEdge_isSome (g : Graph) (t : NodeId) (e : Edge) (j : NodeId) :
    (getNode (pushEdge g t e) j).isSome = (getNode g j).isSome := by
  rw [getNode_pushEdge]
  by_cases h : j = t
  · simp [h]
  · simp [h]

lemma getNode_addEdge_isSome_mono (g : Graph) (a b : NodeId) (l : ℤ) (c : ℝ)
    (fc tc : ℝ × ℝ) (j : NodeId) (h : (getNode g j).isSome) :
    (getNode (addEdge g a b l c fc tc) j).isSome := by
  unfold addEdge
  rw [getNode_pushEdge_isSome]
  exact getNode_ensureNode_isSome_mono _ _ _ _
    (getNode_ensureNode_isSome_mono _ _ _ _ h)

lemma getNode_addEdge_to_isSome (g : Graph) (a b : NodeId) (l : ℤ) (c : ℝ)
    (fc tc : ℝ × ℝ) :
    (getNode (addEdge g a b l c fc tc) b).isSome := by
  unfold addEdge
  rw [getNode_pushEdge_isSome]
  exact getNode_ensureNode_self_isSome _ _ _

/-- Closure: every edge target is itself a node of the graph. -/
def ClosedGraph (g : Graph) : Prop :=
  ∀ j e, e ∈ edgesOfNode g j → (getNode g e.toId).isSome

lemma ClosedGraph_nil : ClosedGraph [] := by
  intro j e h
  simp [edgesOfNode, getNode] at h

lemma ClosedGraph_addEdge (g : Graph) (a b : NodeId) (l : ℤ) (c : ℝ)
    (fc tc : ℝ × ℝ) (hg : ClosedGraph g) :
    ClosedGraph (addEdge g a b l c fc tc) := by
  intro j e he
  rw [edgesOfNode_addEdge] at he
  rcases List.mem_append.mp he with h1 | h2
  · exact getNode_addEdge_isSome_mono _ _ _ _ _ _ _ _ (hg j e h1)
  · by_cases hj : j = a
    · rw [if_pos hj] at h2
      simp only [List.mem_singleton] at h2
      subst h2
      exact getNode_addEdge_to_isSome _ _ _ _ _ _ _
    · rw [if_neg hj] at h2
      cases h2

lemma ClosedGraph_processSegment (rt : String) (pd : PathDir) (lvl : ℤ)
    (speed : ℝ) (st : BuildState) (seg : (ℝ × ℝ) × (ℝ × ℝ))
    (hg : ClosedGraph st.graph) :
    ClosedGraph (processSegment rt pd lvl speed st seg).graph := by
  unfold processSegment
  cases hf : pd.forward <;> cases hb : pd.backward <;>
    simp only [hf, hb, if_true, if_false] <;>
    first
      | exact hg
      | exact ClosedGraph_addEdge _ _ _ _ _ _ _ hg
      | exact ClosedGraph_addEdge _ _ _ _ _ _ _ (ClosedGraph_addEdge _ _ _ _ _ _ _ hg)

lemma ClosedGraph_processFeature (st : BuildState) (f : Feature)
    (hg : ClosedGraph st.graph) : ClosedGraph (processFeature st f).graph := by
  unfold processFeature
  by_cases h1 : f.geomType ≠ "LineString"
  · simpa [h1] using hg
  · by_cases h2 : f.coords.length < 2
    · simpa [h1, h2] using hg
    · by_cases h3 : roadTypeOf f.props = "walkway" ∨ roadTypeOf f.props = "walkways"
      · simpa [h1, h2, h3] using hg
      · simp only [h1, h2, h3, if_false, if_neg]
        have main : ∀ (l : List ((ℝ × ℝ) × (ℝ × ℝ))) (st1 : BuildState),
            ClosedGraph st1.graph →
            ClosedGraph ((l.foldl (processSegment (roadTypeOf f.props)
              (parsePath f.props) (parseLevel f.props) (speedOf f.props)) st1).graph) := by
          intro l
          induction l with
          | nil => intro st1 h; exact h
          | cons s rest ih =>
            intro st1 h
            exact ih _ (ClosedGraph_processSegment _ _ _ _ _ _ h)
        exact main _ _ hg

/-- The built road graph is closed: every edge target is a node. -/
theorem build_closed (prior : BuildState) (fs : List Feature) :
    ClosedGraph (buildRoadGraph prior fs).graph := by
  unfold buildRoadGraph
  have main : ∀ (l : List Feature) (st : BuildState), ClosedGraph st.graph →
      ClosedGraph ((l.foldl processFeature st).graph) := by
    intro l
    induction l with
    | nil => intro st h; exact h
    | cons f rest ih =>
      intro st h
      exact ih _ (ClosedGraph_processFeature _ _ h)
  exact main _ _ ClosedGraph_nil

/-- Every node of the graph originates from a coordinate satisfying `Q`,
whose rounded id is the node's key and whose value is the node's stored
position. -/
def NodesFrom (Q : (ℝ × ℝ) → Prop) (g : Graph) : Prop :=
  ∀ j n, getNode g j = some n → ∃ c, Q c ∧ nodeIdOf c = j ∧ n.x = c.1 ∧ n.z = c.2

lemma NodesFrom_nil (Q : (ℝ × ℝ) → Prop) : NodesFrom Q [] := by
  intro j n h
  simp [getNode] at h

lemma NodesFrom_pushEdge (Q : (ℝ × ℝ) → Prop) (g : Graph) (t : NodeId)
    (e : Edge) (h : NodesFrom Q g) : NodesFrom Q (pushEdge g t e) := by
  intro j n hn
  rw [getNode_pushEdge] at hn
  by_cases hj : j = t
  · rw [if_pos hj] at hn
    cases hg : getNode g j with
    | none => rw [hg] at hn; cases hn
    | some m =>
      rw [hg] at hn
      obtain ⟨c, hQ, hid, hx, hz⟩ := h j m hg
      have hn' : n = { m with edges := m.edges ++ [e] } :=
        (Option.some_inj.mp hn).symm
      refine ⟨c, hQ, hid, ?_, ?_⟩
      · rw [hn']; exact hx
      · rw [hn']; exact hz
  · rw [if_neg hj] at hn
    exact h j n hn

lemma NodesFrom_ensureNode (Q : (ℝ × ℝ) → Prop) (g : Graph) (c : ℝ × ℝ)
    (hQ : Q c) (h : NodesFrom Q g) : NodesFrom Q (ensureNode g (nodeIdOf c) c) := by
  intro j n hn
  rw [getNode_ensureNode] at hn
  cases hg : getNode g j with
  | some m =>
    rw [hg] at hn
    exact h j n (hn ▸ hg)
  | none =>
    rw [hg] at hn
    by_cases hij : nodeIdOf c = j
    · rw [if_pos hij] at hn
      refine ⟨c, hQ, hij, ?_, ?_⟩ <;> rw [← Option.some_inj.mp hn]
    · rw [if_neg hij] at hn
      cases hn

lemma NodesFrom_addEdge (Q : (ℝ × ℝ) → Prop) (g : Graph) (l : ℤ) (cost : ℝ)
    (fc tc : ℝ × ℝ) (hQf : Q fc) (hQt : Q tc) (h : NodesFrom Q g) :
    NodesFrom Q (addEdge g (nodeIdOf fc) (nodeIdOf tc) l cost fc tc) := by
  unfold addEdge
  exact NodesFrom_pushEdge _ _ _ _
    (NodesFrom_ensureNode _ _ _ hQt (NodesFrom_ensureNode _ _ _ hQf h))

lemma NodesFrom_processSegment (Q : (ℝ × ℝ) → Prop) (rt : String)
    (pd : PathDir) (lvl : ℤ) (speed : ℝ) (st : BuildState)
    (seg : (ℝ × ℝ) × (ℝ × ℝ)) (hQ1 : Q seg.1) (hQ2 : Q seg.2)
    (h : NodesFrom Q st.graph) :
    NodesFrom Q (processSegment rt pd lvl speed st seg).graph := by
  unfold processSegment
  cases hf : pd.forward <;> cases hb : pd.backward <;>
    simp only [hf, hb, if_true, if_false] <;>
    first
      | exact h
      | exact NodesFrom_addEdge _ _ _ _ _ _ hQ1 hQ2 h
      | exact NodesFrom_addEdge _ _ _ _ _ _ hQ2 hQ1 h
      | exact NodesFrom_addEdge _ _ _ _ _ _ hQ2 hQ1
          (NodesFrom_addEdge _ _ _ _ _ _ hQ1 hQ2 h)

lemma NodesFrom_processFeature (Q : (ℝ × ℝ) → Prop) (st : BuildState)
    (f : Feature) (hall : ∀ c ∈ f.coords, Q c) (h : NodesFrom Q st.graph) :
    NodesFrom Q (processFeature st f).graph := by
  have hseg : ∀ seg ∈ consecutivePairs f.coords, Q seg.1 ∧ Q seg.2 := by
    have sub : ∀ (l : List (ℝ × ℝ)) (seg : (ℝ × ℝ) × (ℝ × ℝ)),
        seg ∈ consecutivePairs l → seg.1 ∈ l ∧ seg.2 ∈ l := by
      intro l
      induction l with
      | nil => intro seg h; cases h
      | cons a rest ih =>
        intro seg hm
        cases rest with
        | nil => cases hm
        | cons b rest2 =>
          rcases List.mem_cons.mp hm with h1 | h2
          · subst h1; constructor <;> simp
          · obtain ⟨m1, m2⟩ := ih seg h2
            exact ⟨List.mem_cons_of_mem _ m1, List.mem_cons_of_mem _ m2⟩
    intro seg hm
    obtain ⟨m1, m2⟩ := sub f.coords seg hm
    exact ⟨hall _ m1, hall _ m2⟩
  unfold processFeature
  by_cases h1 : f.geomType ≠ "LineString"
  · simpa [h1] using h
  · by_cases h2 : f.coords.length < 2
    · simpa [h1, h2] using h
    · by_cases h3 : roadTypeOf f.props = "walkway" ∨ roadTypeOf f.props = "walkways"
      · simpa [h1, h2, h3] using h
      · simp only [h1, h2, h3, if_false, if_neg]
        have main : ∀ (l : List ((ℝ × ℝ) × (ℝ × ℝ))) (st1 : BuildState),
            (∀ seg ∈ l, Q seg.1 ∧ Q seg.2) → NodesFrom Q st1.graph →
            NodesFrom Q ((l.foldl (processSegment (roadTypeOf f.props)
              (parsePath f.props) (parseLevel f.props) (speedOf f.props)) st1).graph) := by
          intro l
          induction l with
          | nil => intro st1 _ hh; exact hh
          | cons s rest ih =>
            intro st1 hl hh
            exact ih _ (fun seg hs => hl seg (List.mem_cons_of_mem _ hs))
              (NodesFrom_processSegment _ _ _ _ _ _ _ (hl s (by simp)).1
                (hl s (by simp)).2 hh)
        exact main _ _ hseg h

/-- A coordinate appears in some feature of the list. -/
def coordUsed (fs : List Feature) (c : ℝ × ℝ) : Prop :=
  ∃ f ∈ fs, c ∈ f.coords

/-- Every node of the built graph stores a coordinate of some feature, and
its key is that coordinate's rounded id. -/
theorem build_nodes_from (prior : BuildState) (fs : List Feature) :
    NodesFrom (coordUsed fs) (buildRoadGraph prior fs).graph := by
  unfold buildRoadGraph
  have main : ∀ (l : List Feature) (st : BuildState),
      (∀ f ∈ l, f ∈ fs) → NodesFrom (coordUsed fs) st.graph →
      NodesFrom (coordUsed fs) ((l.foldl processFeature st).graph) := by
    intro l
    induction l with
    | nil => intro st _ h; exact h
    | cons f rest ih =>
      intro st hsub h
      refine ih _ (fun f1 hf1 => hsub _ (List.mem_cons_of_mem _ hf1)) ?_
      refine NodesFrom_processFeature _ _ _ ?_ h
      intro c hc
      exact ⟨f, hsub f (by simp), hc⟩
  exact main _ _ (fun f h => h) (NodesFrom_nil _)

/-! ### Walks and reachability -/

/-- A walk in the graph: a chain of edges, each taken from the edge list of
the node reached so far. -/
inductive IsWalk (g : Graph) : NodeId → List Edge → NodeId → Prop
  | nil (a : NodeId) : IsWalk g a [] a
  | cons (a : NodeId) (e : Edge) (es : List Edge) (c : NodeId)
      (he : e ∈ edgesOfNode g a) (hw : IsWalk g e.toId es c) : IsWalk g a (e :: es) c

/-- Total time cost of a walk. -/
def walkCost (es : List Edge) : ℝ := (es.map Edge.cost).sum

/-- One directed hop between nodes, ignoring levels. -/
def EdgeStep (g : Graph) (a b : NodeId) : Prop :=
  ∃ e ∈ edgesOfNode g a, e.toId = b

/-- Plain directed reachability, ignoring levels. -/
def Reaches (g : Graph) : NodeId → NodeId → Prop :=
  Relation.ReflTransGen (EdgeStep g)

lemma map_ne_nil {α β : Type} (f : α → β) (l : List α) (h : l ≠ []) :
    l.map f ≠ [] := by
  cases l with
  | nil => exact absurd rfl h
  | cons a rest => simp

/-- When both endpoints exist, the start has outgoing edges, and the
destination is not reachable from the start, the search reports that no
path was found, with an empty path and zero cost and distance. -/
lemma calculatePath_unreachable (g : Graph) (s t : NodeId) (sn tn : Node)
    (hs : getNode g s = some sn) (ht : getNode g t = some tn)
    (hedges : sn.edges ≠ []) (hur : ¬ Reaches g s t) :
    calculatePath g s t = ⟨[], 0, 0, "No path found."⟩ := by
  unfold calculatePath
  rw [hs, ht]
  dsimp only
  have hlv : firstDedup (sn.edges.map fun e => e.level) ≠ [] := by
    intro hcon
    exact map_ne_nil _ _ hedges ((firstDedup_eq_nil_iff _).mp hcon)
  rw [if_neg (by simpa using hlv)]
  apply aStarLoop_no_path g t (tn.x, tn.z) (fun k => Reaches g s k.1)
  · intro a l e hP he _
    exact Relation.ReflTransGen.tail hP ⟨e, he, rfl⟩
  · intro a l hP ha
    exact hur (ha ▸ hP)
  · intro fr hfr
    rcases List.mem_map.mp hfr with ⟨lv, _, hfr'⟩
    rw [← hfr']
    exact Relation.ReflTransGen.refl

/-! ### Heuristic admissibility support -/

lemma mem_consecutivePairs (l : List (ℝ × ℝ)) (seg : (ℝ × ℝ) × (ℝ × ℝ))
    (h : seg ∈ consecutivePairs l) : seg.1 ∈ l ∧ seg.2 ∈ l := by
  induction l with
  | nil => cases h
  | cons a rest ih =>
    cases rest with
    | nil => cases h
    | cons b rest2 =>
      rcases List.mem_cons.mp h with h1 | h2
      · subst h1; constructor <;> simp
      · obtain ⟨m1, m2⟩ := ih h2
        exact ⟨List.mem_cons_of_mem _ m1, List.mem_cons_of_mem _ m2⟩

lemma one_le_speedOf (p : Props) : 1 ≤ speedOf p := le_max_left _ _

/-- A feature whose coordinates are all integral (so rounding is exact). -/
def IntegralFeature (f : Feature) : Prop :=
  ∀ c ∈ f.coords, ∃ a b : ℤ, c = (((a : ℝ)), ((b : ℝ)))

lemma built_edge_bound (prior : BuildState) (fs : List Feature)
    (hspeed : ∀ f ∈ fs, speedOf f.props ≤ 80)
    (hint : ∀ f ∈ fs, IntegralFeature f) (j : NodeId) (e : Edge)
    (he : e ∈ edgesOfNode (buildRoadGraph prior fs).graph j) :
    0 ≤ e.cost ∧
      calculateDistance (((j.1 : ℝ)), ((j.2 : ℝ)))
        (((e.toId.1 : ℝ)), ((e.toId.2 : ℝ))) / 80 ≤ e.cost := by
  rw [build_edges] at he
  rcases (mem_expectedEdges _ _ _).mp he with ⟨f, hf, hfe⟩
  rcases (mem_featureEdges _ _ _).mp hfe with ⟨_, _, _, seg, hseg, hse⟩
  have hm := mem_consecutivePairs _ _ hseg
  obtain ⟨a1, b1, hc1⟩ := hint f hf seg.1 hm.1
  obtain ⟨a2, b2, hc2⟩ := hint f hf seg.2 hm.2
  have hsp1 : (1 : ℝ) ≤ speedOf f.props := one_le_speedOf _
  have hsppos : (0 : ℝ) < speedOf f.props := lt_of_lt_of_le one_pos hsp1
  have hsp80 := hspeed f hf
  have hdist : 0 ≤ calculateDistance seg.1 seg.2 := calculateDistance_nonneg _ _
  have hdiv : calculateDistance seg.1 seg.2 / 80 ≤
      calculateDistance seg.1 seg.2 / speedOf f.props :=
    div_le_div_of_nonneg_left hdist hsppos hsp80
  have hid1 : nodeIdOf seg.1 = (a1, b1) := by rw [hc1]; exact nodeIdOf_intCast _ _
  have hid2 : nodeIdOf seg.2 = (a2, b2) := by rw [hc2]; exact nodeIdOf_intCast _ _
  rcases (mem_segEdges _ _ _ _ _ _).mp hse with ⟨_, hj, hee⟩ | ⟨_, hj, hee⟩
  · subst hee
    constructor
    · exact div_nonneg hdist (le_of_lt hsppos)
    · have hcj : (((j.1 : ℝ)), ((j.2 : ℝ))) = seg.1 := by
        rw [hj, hid1, hc1]
      have hct : ((((nodeIdOf seg.2).1 : ℝ)), (((nodeIdOf seg.2).2 : ℝ))) = seg.2 := by
        rw [hid2, hc2]
      simpa [hcj, hct] using hdiv
  · subst hee
    constructor
    · exact div_nonneg hdist (le_of_lt hsppos)
    · have hcj : (((j.1 : ℝ)), ((j.2 : ℝ))) = seg.2 := by
        rw [hj, hid2, hc2]
      have hct : ((((nodeIdOf seg.1).1 : ℝ)), (((nodeIdOf seg.1).2 : ℝ))) = seg.1 := by
        rw [hid1, hc1]
      have hsymm := calculateDistance_symm seg.2 seg.1
      simpa [hcj, hct, hsymm] using hdiv

lemma node_coords_cast (prior : BuildState) (fs : List Feature)
    (hint : ∀ f ∈ fs, IntegralFeature f) (j : NodeId) (n : Node)
    (h : getNode (buildRoadGraph prior fs).graph j = some n) :
    n.x = ((j.1 : ℝ)) ∧ n.z = ((j.2 : ℝ)) := by
  obtain ⟨c, hused, hid, hx, hz⟩ := build_nodes_from prior fs j n h
  obtain ⟨f, hf, hcf⟩ := hused
  obtain ⟨a, b, hc⟩ := hint f hf c hcf
  rw [hc, nodeIdOf_intCast] at hid
  subst hid
  rw [hc] at hx hz
  exact ⟨hx, hz⟩

lemma edgesOfNode_isSome (g : Graph) (j : NodeId) (e : Edge)
    (he : e ∈ edgesOfNode g j) : (getNode g j).isSome := by
  unfold edgesOfNode at he
  cases hg : getNode g j with
  | some n => simp
  | none => rw [hg] at he; cases he

lemma heuristic_le_walkCost (prior : BuildState) (fs : List Feature)
    (hspeed : ∀ f ∈ fs, speedOf f.props ≤ 80)
    (hint : ∀ f ∈ fs, IntegralFeature f) (finish : NodeId) (en : Node)
    (hen : getNode (buildRoadGraph prior fs).graph finish = some en) :
    ∀ (es : List Edge) (start : NodeId),
      IsWalk (buildRoadGraph prior fs).graph start es finish →
      heuristic (buildRoadGraph prior fs).graph (en.x, en.z) start ≤ walkCost es := by
  set G := (buildRoadGraph prior fs).graph with hG
  obtain ⟨henx, henz⟩ := node_coords_cast prior fs hint finish en hen
  intro es
  induction es with
  | nil =>
    intro start hw
    cases hw
    unfold heuristic
    rw [hen]
    simp [walkCost, calculateDistance_self]
  | cons e es1 ih =>
    intro start hw
    cases hw with
    | cons _ _ _ _ he hw1 =>
      have hih := ih e.toId hw1
      have hsome := edgesOfNode_isSome _ _ _ he
      cases hga : getNode G start with
      | none => rw [hga] at hsome; cases hsome
      | some sn =>
        obtain ⟨hsx, hsz⟩ := node_coords_cast prior fs hint start sn hga
        have htsome : (getNode G e.toId).isSome := build_closed prior fs start e he
        cases hgt : getNode G e.toId with
        | none => rw [hgt] at htsome; cases htsome
        | some tn =>
          obtain ⟨htx, htz⟩ := node_coords_cast prior fs hint e.toId tn hgt
          have hbound := built_edge_bound prior fs hspeed hint start e he
          have htri := calculateDistance_triangle
            (((start.1 : ℝ)), ((start.2 : ℝ)))
            (((e.toId.1 : ℝ)), ((e.toId.2 : ℝ)))
            (((finish.1 : ℝ)), ((finish.2 : ℝ)))
          have hcost : walkCost (e :: es1) = e.cost + walkCost es1 := by
            simp [walkCost]
          have hheur : heuristic G (en.x, en.z) start =
              calculateDistance (((start.1 : ℝ)), ((start.2 : ℝ)))
                (((finish.1 : ℝ)), ((finish.2 : ℝ))) / 80 := by
            unfold heuristic
            rw [hga]
            dsimp only
            rw [hsx, hsz, henx, henz]
          have hheur2 : heuristic G (en.x, en.z) e.toId =
              calculateDistance (((e.toId.1 : ℝ)), ((e.toId.2 : ℝ)))
                (((finish.1 : ℝ)), ((finish.2 : ℝ))) / 80 := by
            unfold heuristic
            rw [hgt]
            dsimp only
            rw [htx, htz, henx, henz]
          rw [hheur2] at hih
          rw [hheur, hcost]
          have h80 : (0 : ℝ) < 80 := by norm_num
          have hstep : calculateDistance (((start.1 : ℝ)), ((start.2 : ℝ)))
              (((finish.1 : ℝ)), ((finish.2 : ℝ))) / 80 ≤
              calculateDistance (((start.1 : ℝ)), ((start.2 : ℝ)))
                (((e.toId.1 : ℝ)), ((e.toId.2 : ℝ))) / 80 +
              calculateDistance (((e.toId.1 : ℝ)), ((e.toId.2 : ℝ)))
                (((finish.1 : ℝ)), ((finish.2 : ℝ))) / 80 := by
            rw [div_add_div_same]
            exact (div_le_div_iff_of_pos_right h80).mpr htri
          have hb2 := hbound.2
          linarith

/-! ### Step equations and further helper lemmas -/

lemma aStarLoop_succ (g : Graph) (endId : NodeId) (ec : ℝ × ℝ) (fuel : ℕ)
    (openSet : List Frontier) (gs : List (StateKey × ℝ))
    (cf : List (StateKey × StateKey)) (visited : List StateKey) :
    aStarLoop g endId ec (fuel + 1) openSet gs cf visited =
      match sortByF openSet with
      | [] => ⟨[], 0, 0, "No path found."⟩
      | cur :: rest =>
        let key : StateKey := (cur.nodeId, cur.level)
        if key ∈ visited then aStarLoop g endId ec fuel rest gs cf visited
        else
          let visited1 := visited ++ [key]
          if cur.nodeId = endId then
            let path := (reconstructPath g cf (cf.length + 1) key).reverse
            ⟨path, cur.gScore, pathDistance path, "Route found."⟩
          else
            match getNode g cur.nodeId with
            | none => aStarLoop g endId ec fuel rest gs cf visited1
            | some node =>
              let acc := node.edges.foldl
                (expandEdge g ec visited1 cur.nodeId cur.level cur.gScore)
                ⟨gs, cf, []⟩
              aStarLoop g endId ec fuel (rest ++ acc.pushes) acc.gs acc.cf
                visited1 := rfl

lemma reconstructPath_step (g : Graph) (cf : List (StateKey × StateKey))
    (fuel : ℕ) (key : StateKey) (h : 0 < fuel) :
    reconstructPath g cf fuel key =
      (match getNode g key.1 with
        | some n => [(n.x, n.z)]
        | none => []) ++
      (match alistFind cf key with
        | some prev => reconstructPath g cf (fuel - 1) prev
        | none => []) := by
  obtain ⟨m, rfl⟩ : ∃ m, fuel = m + 1 := ⟨fuel - 1, (Nat.succ_pred_eq_of_pos h).symm⟩
  rfl

lemma graphFuel_pos (g : Graph) : 0 < graphFuel g := by
  unfold graphFuel
  positivity

lemma firstDedup_nodup (l : List ℤ) : (firstDedup l).Nodup := by
  unfold firstDedup
  have main : ∀ (l acc : List ℤ), acc.Nodup →
      (l.foldl (fun acc x => if x ∈ acc then acc else acc ++ [x]) acc).Nodup := by
    intro l
    induction l with
    | nil => intro acc h; exact h
    | cons z rest ih =>
      intro acc h
      by_cases hz : z ∈ acc
      · simpa [hz] using ih acc h
      · simp only [List.foldl_cons, hz, if_false]
        exact ih _ (by simp [List.nodup_append, h, hz])
  exact main l [] List.nodup_nil

/-- Generic failure lemma at the `calculatePath` level: a state predicate
closed under legal transitions, excluding the destination and holding for
every initial level, forces the no-path result. -/
lemma calculatePath_no_path_inv (g : Graph) (s t : NodeId) (sn tn : Node)
    (hs : getNode g s = some sn) (ht : getNode g t = some tn)
    (hedges : sn.edges ≠ []) (P : StateKey → Prop)
    (Hclosed : ∀ a l e, P (a, l) → e ∈ edgesOfNode g a →
      levelsCanConnect l e.level = true → P (e.toId, e.level))
    (Hend : ∀ a l, P (a, l) → a ≠ t)
    (Hstart : ∀ l ∈ firstDedup (sn.edges.map fun e => e.level), P (s, l)) :
    calculatePath g s t = ⟨[], 0, 0, "No path found."⟩ := by
  unfold calculatePath
  rw [hs, ht]
  dsimp only
  have hlv : firstDedup (sn.edges.map fun e => e.level) ≠ [] := by
    intro hcon
    exact map_ne_nil _ _ hedges ((firstDedup_eq_nil_iff _).mp hcon)
  rw [if_neg (by simpa using hlv)]
  apply aStarLoop_no_path g t (tn.x, tn.z) P Hclosed Hend
  intro fr hfr
  rcases List.mem_map.mp hfr with ⟨lv, hlvmem, hfr'⟩
  rw [← hfr']
  exact Hstart lv hlvmem

/-- The degenerate route query with identical and edge-bearing endpoints:
the first popped state is immediately the destination. -/
theorem calculatePath_self_node (g : Graph) (x : NodeId) (n : Node)
    (h : getNode g x = some n) (hne : n.edges ≠ []) :
    calculatePath g x x = ⟨[(n.x, n.z)], 0, 0, "Route found."⟩ := by
  unfold calculatePath
  rw [h]
  dsimp only
  have hlv : firstDedup (n.edges.map fun e => e.level) ≠ [] := by
    intro hcon
    exact map_ne_nil _ _ hne ((firstDedup_eq_nil_iff _).mp hcon)
  rw [if_neg (by simpa using hlv)]
  obtain ⟨m, hm⟩ : ∃ m, graphFuel g = m + 1 :=
    ⟨graphFuel g - 1, (Nat.succ_pred_eq_of_pos (graphFuel_pos g)).symm⟩
  rw [hm, aStarLoop_succ]
  cases hsrt : sortByF ((firstDedup (n.edges.map fun e => e.level)).map
      fun l => (⟨x, l, 0, heuristic g (n.x, n.z) x⟩ : Frontier)) with
  | nil =>
    exfalso
    exact map_ne_nil _ _ hlv ((sortByF_eq_nil_iff _).mp hsrt)
  | cons cur rest =>
    have hcur : cur ∈ (firstDedup (n.edges.map fun e => e.level)).map
        fun l => (⟨x, l, 0, heuristic g (n.x, n.z) x⟩ : Frontier) :=
      (mem_sortByF _ _).mp (by rw [hsrt]; simp)
    obtain ⟨l, _, hcureq⟩ := List.mem_map.mp hcur
    dsimp only
    rw [if_neg (by rw [← hcureq]; exact List.not_mem_nil _)]
    rw [if_pos (by rw [← hcureq])]
    rw [← hcureq]
    dsimp only
    rw [reconstructPath_step _ _ _ _ (by norm_num)]
    dsimp only
    rw [h]
    simp [alistFind, pathDistance]

/-! ### Specification of the best-segment scan -/

lemma bestSegmentStep_cases (target : ℝ × ℝ) (filt : Segment → Bool)
    (acc : Option (Segment × ℝ)) (seg : Segment) :
    (filt seg = false ∧ bestSegmentStep target filt acc seg = acc) ∨
    (filt seg = true ∧ acc = none ∧
      ¬ pointToSegmentDistance target seg.segStart seg.segEnd ≤ MAX_DISTANCE ∧
      bestSegmentStep target filt acc seg = none) ∨
    (filt seg = true ∧ (∃ b bd, acc = some (b, bd) ∧
      ¬ (pointToSegmentDistance target seg.segStart seg.segEnd < bd ∧
        pointToSegmentDistance target seg.segStart seg.segEnd ≤ MAX_DISTANCE)) ∧
      bestSegmentStep target filt acc seg = acc) ∨
    (filt seg = true ∧ acc = none ∧
      pointToSegmentDistance target seg.segStart seg.segEnd ≤ MAX_DISTANCE ∧
      bestSegmentStep target filt acc seg =
        some (seg, pointToSegmentDistance target seg.segStart seg.segEnd)) ∨
    (filt seg = true ∧ (∃ b bd, acc = some (b, bd) ∧
      pointToSegmentDistance target seg.segStart seg.segEnd < bd) ∧
      pointToSegmentDistance target seg.segStart seg.segEnd ≤ MAX_DISTANCE ∧
      bestSegmentStep target filt acc seg =
        some (seg, pointToSegmentDistance target seg.segStart seg.segEnd)) := by
  unfold bestSegmentStep
  by_cases h0 : filt seg = false
  · exact Or.inl ⟨h0, by rw [if_pos h0]⟩
  · have h0' : filt seg = true := by
      cases hb : filt seg
      · exact absurd hb h0
      · rfl
    rw [if_neg h0]
    cases hacc : acc with
    | none =>
      dsimp only
      by_cases h1 : pointToSegmentDistance target seg.segStart seg.segEnd ≤ MAX_DISTANCE
      · exact Or.inr (Or.inr (Or.inr (Or.inl ⟨h0', rfl, h1, by rw [if_pos h1]⟩)))
      · exact Or.inr (Or.inl ⟨h0', rfl, h1, by rw [if_neg h1]⟩)
    | some p =>
      obtain ⟨b, bd⟩ := p
      dsimp only
      by_cases h1 : pointToSegmentDistance target seg.segStart seg.segEnd < bd ∧
          pointToSegmentDistance target seg.segStart seg.segEnd ≤ MAX_DISTANCE
      · exact Or.inr (Or.inr (Or.inr (Or.inr
          ⟨h0', ⟨b, bd, rfl, h1.1⟩, h1.2, by rw [if_pos h1]⟩)))
      · exact Or.inr (Or.inr (Or.inl ⟨h0', ⟨b, bd, rfl, h1⟩, by rw [if_neg h1]⟩))

lemma bestSegment_fold_spec (target : ℝ × ℝ) (filt : Segment → Bool) :
    ∀ (l : List Segment) (acc : Option (Segment × ℝ)),
    (∀ b bd, acc = some (b, bd) → filt b = true ∧
      bd = pointToSegmentDistance target b.segStart b.segEnd ∧ bd ≤ MAX_DISTANCE) →
    (∀ b bd, l.foldl (bestSegmentStep target filt) acc = some (b, bd) →
      (filt b = true ∧ bd = pointToSegmentDistance target b.segStart b.segEnd ∧
        bd ≤ MAX_DISTANCE) ∧
      (acc = some (b, bd) ∨ b ∈ l) ∧
      (∀ s ∈ l, filt s = true →
        bd ≤ pointToSegmentDistance target s.segStart s.segEnd) ∧
      (∀ c cd, acc = some (c, cd) → bd ≤ cd)) ∧
    (l.foldl (bestSegmentStep target filt) acc = none →
      acc = none ∧ ∀ s ∈ l, filt s = true →
        ¬ (pointToSegmentDistance target s.segStart s.segEnd ≤ MAX_DISTANCE)) := by
  intro l
  induction l with
  | nil =>
    intro acc Hacc
    constructor
    · intro b bd hr
      refine ⟨Hacc b bd hr, Or.inl hr, ?_, ?_⟩
      · intro s hs; cases hs
      · intro c cd hc
        rw [hc] at hr
        obtain ⟨_, h2⟩ := Prod.mk.injEq _ _ _ _ ▸ Option.some_inj.mp hr
        rw [h2]
    · intro hr
      exact ⟨hr, fun s hs => by cases hs⟩
  | cons s0 rest ih =>
    intro acc Hacc
    rw [List.foldl_cons]
    rcases bestSegmentStep_cases target filt acc s0 with
      ⟨hf0, hstep⟩ | ⟨hf0, haccn, hfar, hstep⟩ | ⟨hf0, ⟨c, cd, haccs, hkeep⟩, hstep⟩ |
      ⟨hf0, haccn, hnear, hstep⟩ | ⟨hf0, ⟨c, cd, haccs, himp⟩, hnear, hstep⟩
    · -- ineligible head: accumulator unchanged
      rw [hstep]
      obtain ⟨ih1, ih2⟩ := ih acc Hacc
      constructor
      · intro b bd hr
        obtain ⟨hfacts, horig, hmin, hmono⟩ := ih1 b bd hr
        refine ⟨hfacts, ?_, ?_, hmono⟩
        · rcases horig with h | h
          · exact Or.inl h
          · exact Or.inr (List.mem_cons_of_mem _ h)
        · intro s hs hfs
          rcases List.mem_cons.mp hs with h | h
          · subst h; rw [hfs] at hf0; cases hf0
          · exact hmin s h hfs
      · intro hr
        obtain ⟨ha, hall⟩ := ih2 hr
        refine ⟨ha, ?_⟩
        intro s hs hfs
        rcases List.mem_cons.mp hs with h | h
        · subst h; rw [hfs] at hf0; cases hf0
        · exact hall s h hfs
    · -- eligible head, empty accumulator, head out of radius
      rw [hstep]
      obtain ⟨ih1, ih2⟩ := ih none (fun b bd h => by cases h)
      constructor
      · intro b bd hr
        obtain ⟨hfacts, horig, hmin, _⟩ := ih1 b bd hr
        refine ⟨hfacts, ?_, ?_, ?_⟩
        · rcases horig with h | h
          · cases h
          · exact Or.inr (List.mem_cons_of_mem _ h)
        · intro s hs hfs
          rcases List.mem_cons.mp hs with h | h
          · subst h
            have h30 : bd ≤ MAX_DISTANCE := hfacts.2.2
            have : MAX_DISTANCE < pointToSegmentDistance target s.segStart s.segEnd :=
              lt_of_not_le hfar
            linarith
          · exact hmin s h hfs
        · intro c2 cd2 hc
          rw [haccn] at hc; cases hc
      · intro hr
        obtain ⟨_, hall⟩ := ih2 hr
        refine ⟨haccn, ?_⟩
        intro s hs hfs
        rcases List.mem_cons.mp hs with h | h
        · subst h; exact hfar
        · exact hall s h hfs
    · -- eligible head, kept the existing best
      rw [hstep]
      obtain ⟨ih1, ih2⟩ := ih acc Hacc
      obtain ⟨_, hcd, hcd30⟩ := Hacc c cd haccs
      constructor
      · intro b bd hr
        obtain ⟨hfacts, horig, hmin, hmono⟩ := ih1 b bd hr
        refine ⟨hfacts, ?_, ?_, hmono⟩
        · rcases horig with h | h
          · exact Or.inl h
          · exact Or.inr (List.mem_cons_of_mem _ h)
        · intro s hs hfs
          rcases List.mem_cons.mp hs with h | h
          · subst h
            have hbd_cd : bd ≤ cd := hmono c cd haccs
            have : cd ≤ pointToSegmentDistance target s.segStart s.segEnd := by
              rcases not_and_or.mp hkeep with h1 | h1
              · exact le_of_not_lt h1
              · have := lt_of_not_le h1
                linarith
            linarith
          · exact hmin s h hfs
      · intro hr
        obtain ⟨ha, _⟩ := ih2 hr
        rw [haccs] at ha; cases ha
    · -- eligible head, empty accumulator, head becomes the best
      rw [hstep]
      have Hacc2 : ∀ b bd,
          (some (s0, pointToSegmentDistance target s0.segStart s0.segEnd) :
            Option (Segment × ℝ)) = some (b, bd) →
          filt b = true ∧ bd = pointToSegmentDistance target b.segStart b.segEnd ∧
            bd ≤ MAX_DISTANCE := by
        intro b bd h
        obtain ⟨h1, h2⟩ := Prod.mk.injEq _ _ _ _ ▸ Option.some_inj.mp h
        rw [← h1, ← h2]
        exact ⟨hf0, rfl, hnear⟩
      obtain ⟨ih1, ih2⟩ := ih _ Hacc2
      constructor
      · intro b bd hr
        obtain ⟨hfacts, horig, hmin, hmono⟩ := ih1 b bd hr
        refine ⟨hfacts, ?_, ?_, ?_⟩
        · rcases horig with h | h
          · obtain ⟨h1, _⟩ := Prod.mk.injEq _ _ _ _ ▸ Option.some_inj.mp h.symm
            exact Or.inr (by rw [h1]; exact List.mem_cons_self _ _)
          · exact Or.inr (List.mem_cons_of_mem _ h)
        · intro s hs hfs
          rcases List.mem_cons.mp hs with h | h
          · subst h
            exact hmono _ _ rfl
          · exact hmin s h hfs
        · intro c2 cd2 hc
          rw [haccn] at hc; cases hc
      · intro hr
        obtain ⟨ha, _⟩ := ih2 hr
        cases ha
    · -- eligible head, strictly better than the existing best
      rw [hstep]
      have Hacc2 : ∀ b bd,
          (some (s0, pointToSegmentDistance target s0.segStart s0.segEnd) :
            Option (Segment × ℝ)) = some (b, bd) →
          filt b = true ∧ bd = pointToSegmentDistance target b.segStart b.segEnd ∧
            bd ≤ MAX_DISTANCE := by
        intro b bd h
        obtain ⟨h1, h2⟩ := Prod.mk.injEq _ _ _ _ ▸ Option.some_inj.mp h
        rw [← h1, ← h2]
        exact ⟨hf0, rfl, hnear⟩
      obtain ⟨ih1, ih2⟩ := ih _ Hacc2
      obtain ⟨_, hcd, hcd30⟩ := Hacc c cd haccs
      constructor
      · intro b bd hr
        obtain ⟨hfacts, horig, hmin, hmono⟩ := ih1 b bd hr
        refine ⟨hfacts, ?_, ?_, ?_⟩
        · rcases horig with h | h
          · obtain ⟨h1, _⟩ := Prod.mk.injEq _ _ _ _ ▸ Option.some_inj.mp h.symm
            exact Or.inr (by rw [h1]; exact List.mem_cons_self _ _)
          · exact Or.inr (List.mem_cons_of_mem _ h)
        · intro s hs hfs
          rcases List.mem_cons.mp hs with h | h
          · subst h
            exact hmono _ _ rfl
          · exact hmin s h hfs
        · intro c2 cd2 hc
          rw [haccs] at hc
          obtain ⟨h1, h2⟩ := Prod.mk.injEq _ _ _ _ ▸ Option.some_inj.mp hc
          have hs0 : bd ≤ pointToSegmentDistance target s0.segStart s0.segEnd :=
            hmono _ _ rfl
          rw [← h2]
          linarith
      · intro hr
        obtain ⟨ha, _⟩ := ih2 hr
        cases ha

/-- Specification of `bestSegment`: a successful scan returns an eligible
segment within the snap radius whose clamped distance is minimal among all
eligible segments; a failed scan means no eligible segment lies within the
radius. -/
lemma bestSegment_spec (target : ℝ × ℝ) (segs : List Segment)
    (filt : Segment → Bool) :
    (∀ b bd, bestSegment target segs filt = some (b, bd) →
      b ∈ segs ∧ filt b = true ∧
      bd = pointToSegmentDistance target b.segStart b.segEnd ∧
      bd ≤ MAX_DISTANCE ∧
      ∀ s ∈ segs, filt s = true →
        bd ≤ pointToSegmentDistance target s.segStart s.segEnd) ∧
    (bestSegment target segs filt = none →
      ∀ s ∈ segs, filt s = true →
        ¬ (pointToSegmentDistance target s.segStart s.segEnd ≤ MAX_DISTANCE)) := by
  obtain ⟨h1, h2⟩ := bestSegment_fold_spec target filt segs none (fun b bd h => by cases h)
  constructor
  · intro b bd hr
    obtain ⟨hfacts, horig, hmin, _⟩ := h1 b bd hr
    rcases horig with h | h
    · cases h
    · exact ⟨h, hfacts.1, hfacts.2.1, hfacts.2.2, hmin⟩
  · intro hr
    exact (h2 hr).2

/-! ### Concrete test data -/

lemma jsRound_lit_0 : jsRound 0 = 0 := jsRound_eq _ _ (by norm_num) (by norm_num)
lemma jsRound_lit_2 : jsRound 2 = 2 := jsRound_eq _ _ (by norm_num) (by norm_num)
lemma jsRound_lit_5 : jsRound 5 = 5 := jsRound_eq _ _ (by norm_num) (by norm_num)
lemma jsRound_lit_10 : jsRound 10 = 10 := jsRound_eq _ _ (by norm_num) (by norm_num)
lemma jsRound_lit_20 : jsRound 20 = 20 := jsRound_eq _ _ (by norm_num) (by norm_num)
lemma jsRound_lit_30 : jsRound 30 = 30 := jsRound_eq _ _ (by norm_num) (by norm_num)
lemma jsRound_lit_80 : jsRound 80 = 80 := jsRound_eq _ _ (by norm_num) (by norm_num)
lemma jsRound_lit_100 : jsRound 100 = 100 := jsRound_eq _ _ (by norm_num) (by norm_num)
lemma jsRound_lit_110 : jsRound 110 = 110 := jsRound_eq _ _ (by norm_num) (by norm_num)
lemma jsRound_lit_neg10 : jsRound (-10) = -10 := jsRound_eq _ _ (by norm_num) (by norm_num)
lemma jsRound_lit_06 : jsRound 0.6 = 1 := jsRound_eq _ _ (by norm_num) (by norm_num)
lemma jsRound_lit_14 : jsRound 1.4 = 1 := jsRound_eq _ _ (by norm_num) (by norm_num)

/-- Properties carrying a directionality code, a level string and speed 50. -/
def propsDir (dir : String) (lvl : String) : Props :=
  ⟨some dir, none, some lvl, none, some 50, none, none, none⟩

/-- Properties carrying only a speed. -/
def propsSpeed (v : ℝ) : Props := ⟨none, none, none, none, some v, none, none, none⟩

/-- Properties carrying an unrecognized directionality code. -/
def propsPathX : Props := ⟨some ("N"), none, none, none, some 50, none, none, none⟩

/-- Properties carrying only a road classification. -/
def propsType (t : String) : Props := ⟨none, none, none, none, some 50, none, some t, none⟩

lemma speedOf_propsDir (d l : String) : speedOf (propsDir d l) = 50 := by
  unfold speedOf propsDir
  simp

lemma speedOf_propsType (t : String) : speedOf (propsType t) = 50 := by
  unfold speedOf propsType
  simp

def featBE : Feature := ⟨"LineString", [(0, 0), (10, 0)], propsDir ("BE") ("0")⟩
def featEB : Feature := ⟨"LineString", [(0, 0), (10, 0)], propsDir ("EB") ("0")⟩
def featBoth : Feature := ⟨"LineString", [(0, 0), (10, 0)], propsDir ("B") ("0")⟩
def featBC : Feature := ⟨"LineString", [(10, 0), (20, 0)], propsDir ("BE") ("0")⟩
def featCD : Feature := ⟨"LineString", [(100, 0), (110, 0)], propsDir ("BE") ("0")⟩
def featL2 : Feature := ⟨"LineString", [(10, 0), (30, 0)], propsDir ("BE") ("2")⟩
def featL1 : Feature := ⟨"LineString", [(10, 0), (20, 0)], propsDir ("BE") ("1")⟩
def featL2b : Feature := ⟨"LineString", [(20, 0), (30, 0)], propsDir ("BE") ("2")⟩
def featSpeed0 : Feature := ⟨"LineString", [(0, 0), (10, 0)], propsSpeed 0⟩
def featSpeedHalf : Feature := ⟨"LineString", [(0, 0), (10, 0)], propsSpeed 0.5⟩
def featPathX : Feature := ⟨"LineString", [(0, 0), (10, 0)], propsPathX⟩
def featOrd : Feature := ⟨"LineString", [(-10, 5), (10, 5)], propsType ("Road")⟩
def featRamp : Feature := ⟨"LineString", [(-10, 2), (10, 2)], propsType ("Ramp")⟩
def featFast : Feature := ⟨"LineString", [(0, 0), (80, 0)], propsSpeed 800⟩
def featFracA : Feature := ⟨"LineString", [(0, 0), (0.6, 0)], propsSpeed 50⟩
def featFracB : Feature := ⟨"LineString", [(1.4, 0), (2, 0)], propsSpeed 50⟩

def gBE : Graph := (buildRoadGraph ⟨[], []⟩ [featBE]).graph

lemma gBE_eq : gBE =
    [(((0 : ℤ), (0 : ℤ)), ⟨0, 0, [⟨((10 : ℤ), (0 : ℤ)), 0,
        calculateDistance (0, 0) (10, 0) / 50⟩]⟩),
     (((10 : ℤ), (0 : ℤ)), ⟨10, 0, []⟩)] := by
  unfold gBE
  simp [buildRoadGraph, processFeature, processSegment, addEdge, ensureNode,
    pushEdge, getNode, consecutivePairs, featBE, nodeIdOf, jsRound_lit_0,
    jsRound_lit_10, speedOf_propsDir, -Prod.mk_zero_zero,
    show parsePath (propsDir ("BE") ("0")) = ⟨true, false⟩ from by decide,
    show parseLevel (propsDir ("BE") ("0")) = 0 from by decide,
    show roadTypeOf (propsDir ("BE") ("0")) = "" from by decide]

lemma speedOf_propsSpeed (v : ℝ) : speedOf (propsSpeed v) = max 1 v := by
  unfold speedOf propsSpeed
  simp

def gChain : Graph := (buildRoadGraph ⟨[], []⟩ [featBE, featBC]).graph

lemma gChain_eq : gChain =
    [(((0 : ℤ), (0 : ℤ)), ⟨0, 0, [⟨((10 : ℤ), (0 : ℤ)), 0,
        calculateDistance (0, 0) (10, 0) / 50⟩]⟩),
     (((10 : ℤ), (0 : ℤ)), ⟨10, 0, [⟨((20 : ℤ), (0 : ℤ)), 0,
        calculateDistance (10, 0) (20, 0) / 50⟩]⟩),
     (((20 : ℤ), (0 : ℤ)), ⟨20, 0, []⟩)] := by
  unfold gChain
  simp [buildRoadGraph, processFeature, processSegment, addEdge, ensureNode,
    pushEdge, getNode, consecutivePairs, featBE, featBC, nodeIdOf,
    jsRound_lit_0, jsRound_lit_10, jsRound_lit_20, speedOf_propsDir,
    -Prod.mk_zero_zero,
    show parsePath (propsDir ("BE") ("0")) = ⟨true, false⟩ from by decide,
    show parseLevel (propsDir ("BE") ("0")) = 0 from by decide,
    show roadTypeOf (propsDir ("BE") ("0")) = "" from by decide]

def gDisj : Graph := (buildRoadGraph ⟨[], []⟩ [featBE, featCD]).graph

lemma gDisj_eq : gDisj =
    [(((0 : ℤ), (0 : ℤ)), ⟨0, 0, [⟨((10 : ℤ), (0 : ℤ)), 0,
        calculateDistance (0, 0) (10, 0) / 50⟩]⟩),
     (((10 : ℤ), (0 : ℤ)), ⟨10, 0, []⟩),
     (((100 : ℤ), (0 : ℤ)), ⟨100, 0, [⟨((110 : ℤ), (0 : ℤ)), 0,
        calculateDistance (100, 0) (110, 0) / 50⟩]⟩),
     (((110 : ℤ), (0 : ℤ)), ⟨110, 0, []⟩)] := by
  unfold gDisj
  simp [buildRoadGraph, processFeature, processSegment, addEdge, ensureNode,
    pushEdge, getNode, consecutivePairs, featBE, featCD, nodeIdOf,
    jsRound_lit_0, jsRound_lit_10, jsRound_lit_100, jsRound_lit_110,
    speedOf_propsDir, -Prod.mk_zero_zero,
    show parsePath (propsDir ("BE") ("0")) = ⟨true, false⟩ from by decide,
    show parseLevel (propsDir ("BE") ("0")) = 0 from by decide,
    show roadTypeOf (propsDir ("BE") ("0")) = "" from by decide]

def gLvlFail : Graph := (buildRoadGraph ⟨[], []⟩ [featBE, featL2]).graph

lemma gLvlFail_eq : gLvlFail =
    [(((0 : ℤ), (0 : ℤ)), ⟨0, 0, [⟨((10 : ℤ), (0 : ℤ)), 0,
        calculateDistance (0, 0) (10, 0) / 50⟩]⟩),
     (((10 : ℤ), (0 : ℤ)), ⟨10, 0, [⟨((30 : ℤ), (0 : ℤ)), 2,
        calculateDistance (10, 0) (30, 0) / 50⟩]⟩),
     (((30 : ℤ), (0 : ℤ)), ⟨30, 0, []⟩)] := by
  unfold gLvlFail
  simp [buildRoadGraph, processFeature, processSegment, addEdge, ensureNode,
    pushEdge, getNode, consecutivePairs, featBE, featL2, nodeIdOf,
    jsRound_lit_0, jsRound_lit_10, jsRound_lit_30, speedOf_propsDir,
    -Prod.mk_zero_zero,
    show parsePath (propsDir ("BE") ("0")) = ⟨true, false⟩ from by decide,
    show parsePath (propsDir ("BE") ("2")) = ⟨true, false⟩ from by decide,
    show parseLevel (propsDir ("BE") ("0")) = 0 from by decide,
    show parseLevel (propsDir ("BE") ("2")) = 2 from by decide,
    show roadTypeOf (propsDir ("BE") ("0")) = "" from by decide,
    show roadTypeOf (propsDir ("BE") ("2")) = "" from by decide]

def gLvlOk : Graph := (buildRoadGraph ⟨[], []⟩ [featBE, featL1, featL2b]).graph

lemma gLvlOk_eq : gLvlOk =
    [(((0 : ℤ), (0 : ℤ)), ⟨0, 0, [⟨((10 : ℤ), (0 : ℤ)), 0,
        calculateDistance (0, 0) (10, 0) / 50⟩]⟩),
     (((10 : ℤ), (0 : ℤ)), ⟨10, 0, [⟨((20 : ℤ), (0 : ℤ)), 1,
        calculateDistance (10, 0) (20, 0) / 50⟩]⟩),
     (((20 : ℤ), (0 : ℤ)), ⟨20, 0, [⟨((30 : ℤ), (0 : ℤ)), 2,
        calculateDistance (20, 0) (30, 0) / 50⟩]⟩),
     (((30 : ℤ), (0 : ℤ)), ⟨30, 0, []⟩)] := by
  unfold gLvlOk
  simp [buildRoadGraph, processFeature, processSegment, addEdge, ensureNode,
    pushEdge, getNode, consecutivePairs, featBE, featL1, featL2b, nodeIdOf,
    jsRound_lit_0, jsRound_lit_10, jsRound_lit_20, jsRound_lit_30,
    speedOf_propsDir, -Prod.mk_zero_zero,
    show parsePath (propsDir ("BE") ("0")) = ⟨true, false⟩ from by decide,
    show parsePath (propsDir ("BE") ("1")) = ⟨true, false⟩ from by decide,
    show parsePath (propsDir ("BE") ("2")) = ⟨true, false⟩ from by decide,
    show parseLevel (propsDir ("BE") ("0")) = 0 from by decide,
    show parseLevel (propsDir ("BE") ("1")) = 1 from by decide,
    show parseLevel (propsDir ("BE") ("2")) = 2 from by decide,
    show roadTypeOf (propsDir ("BE") ("0")) = "" from by decide,
    show roadTypeOf (propsDir ("BE") ("1")) = "" from by decide,
    show roadTypeOf (propsDir ("BE") ("2")) = "" from by decide]

/-- The build state for the unrecognized-directionality feature: no nodes,
no edges, but the segment is still recorded. -/
lemma stPathX_eq : buildRoadGraph ⟨[], []⟩ [featPathX] =
    ⟨[], [⟨(0, 0), (10, 0), ((0 : ℤ), (0 : ℤ)), ((10 : ℤ), (0 : ℤ)), ""⟩]⟩ := by
  simp [buildRoadGraph, processFeature, processSegment, consecutivePairs,
    featPathX, nodeIdOf, jsRound_lit_0, jsRound_lit_10, -Prod.mk_zero_zero,
    show parsePath propsPathX = ⟨false, false⟩ from by decide,
    show roadTypeOf propsPathX = "" from by decide]

lemma segsC4_eq : (buildRoadGraph ⟨[], []⟩ [featOrd, featRamp]).segments =
    [⟨(-10, 5), (10, 5), ((-10 : ℤ), (5 : ℤ)), ((10 : ℤ), (5 : ℤ)), "road"⟩,
     ⟨(-10, 2), (10, 2), ((-10 : ℤ), (2 : ℤ)), ((10 : ℤ), (2 : ℤ)), "ramp"⟩] := by
  rw [build_segments]
  simp [featureSegments, consecutivePairs, featOrd, featRamp, nodeIdOf,
    jsRound_lit_neg10, jsRound_lit_5, jsRound_lit_2, jsRound_lit_10,
    -Prod.mk_zero_zero,
    show roadTypeOf (propsType ("Road")) = "road" from by decide,
    show roadTypeOf (propsType ("Ramp")) = "ramp" from by decide]

lemma segsRamp_eq : (buildRoadGraph ⟨[], []⟩ [featRamp]).segments =
    [⟨(-10, 2), (10, 2), ((-10 : ℤ), (2 : ℤ)), ((10 : ℤ), (2 : ℤ)), "ramp"⟩] := by
  rw [build_segments]
  simp [featureSegments, consecutivePairs, featRamp, nodeIdOf,
    jsRound_lit_neg10, jsRound_lit_2, jsRound_lit_10, -Prod.mk_zero_zero,
    show roadTypeOf (propsType ("Ramp")) = "ramp" from by decide]

def gFast : Graph := (buildRoadGraph ⟨[], []⟩ [featFast]).graph

lemma gFast_eq : gFast =
    [(((0 : ℤ), (0 : ℤ)), ⟨0, 0, [⟨((80 : ℤ), (0 : ℤ)), 0,
        calculateDistance (0, 0) (80, 0) / 800⟩]⟩),
     (((80 : ℤ), (0 : ℤ)), ⟨80, 0, [⟨((0 : ℤ), (0 : ℤ)), 0,
        calculateDistance (0, 0) (80, 0) / 800⟩]⟩)] := by
  unfold gFast
  simp [buildRoadGraph, processFeature, processSegment, addEdge, ensureNode,
    pushEdge, getNode, consecutivePairs, featFast, nodeIdOf, jsRound_lit_0,
    jsRound_lit_80, speedOf_propsSpeed, -Prod.mk_zero_zero,
    show parsePath (propsSpeed 800) = ⟨true, true⟩ from by decide,
    show parseLevel (propsSpeed 800) = 0 from by decide,
    show roadTypeOf (propsSpeed 800) = "" from by decide,
    show max (1 : ℝ) 800 = 800 from by norm_num]

def gFrac : Graph := (buildRoadGraph ⟨[], []⟩ [featFracA, featFracB]).graph

lemma gFrac_eq : gFrac =
    [(((0 : ℤ), (0 : ℤ)), ⟨0, 0, [⟨((1 : ℤ), (0 : ℤ)), 0,
        calculateDistance (0, 0) (0.6, 0) / 50⟩]⟩),
     (((1 : ℤ), (0 : ℤ)), ⟨0.6, 0, [⟨((0 : ℤ), (0 : ℤ)), 0,
        calculateDistance (0, 0) (0.6, 0) / 50⟩,
       ⟨((2 : ℤ), (0 : ℤ)), 0, calculateDistance (1.4, 0) (2, 0) / 50⟩]⟩),
     (((2 : ℤ), (0 : ℤ)), ⟨2, 0, [⟨((1 : ℤ), (0 : ℤ)), 0,
        calculateDistance (1.4, 0) (2, 0) / 50⟩]⟩)] := by
  unfold gFrac
  simp [buildRoadGraph, processFeature, processSegment, addEdge, ensureNode,
    pushEdge, getNode, consecutivePairs, featFracA, featFracB, nodeIdOf,
    jsRound_lit_0, jsRound_lit_06, jsRound_lit_14, jsRound_lit_2,
    speedOf_propsSpeed, -Prod.mk_zero_zero,
    show parsePath (propsSpeed 50) = ⟨true, true⟩ from by decide,
    show parseLevel (propsSpeed 50) = 0 from by decide,
    show roadTypeOf (propsSpeed 50) = "" from by decide,
    show max (1 : ℝ) 50 = 50 from by norm_num]

/-! ### Claim theorems -/

/-- C9: rebuilding the road graph from the same feature list is
deterministic and idempotent: whatever the prior global state, two
invocations produce identical graphs (same node entries, same edge lists,
same costs) and identical segment lists, because the build begins by
resetting both globals. -/
theorem claim_C9 (s1 s2 : BuildState) (fs : List Feature) :
    buildRoadGraph s1 fs = buildRoadGraph s2 fs ∧
    buildRoadGraph (buildRoadGraph s1 fs) fs = buildRoadGraph s1 fs ∧
    (buildRoadGraph s1 fs).graph = (buildRoadGraph s2 fs).graph ∧
    (buildRoadGraph s1 fs).segments = (buildRoadGraph s2 fs).segments :=
  ⟨rfl, rfl, rfl, rfl⟩

/-- C7 counterexample: a feature whose directionality code is present but
unrecognized ("N") is not treated as bidirectional: `parsePath` allows
neither direction and graph construction creates no edges and no nodes at
all, contradicting the claim that both directed edges are created. -/
theorem claim_C7_counterexample :
    featPathX.props.Path = some ("N") ∧
    parsePath featPathX.props = ⟨false, false⟩ ∧
    (buildRoadGraph ⟨[], []⟩ [featPathX]).graph = [] := by
  refine ⟨rfl, by decide, ?_⟩
  rw [stPathX_eq]

/-- C7 amended: a feature with an absent directionality attribute defaults
to Both (both directed edges per segment), but a present unrecognized code
yields neither direction, so no edge is created for its segments. -/
theorem claim_C7 :
    (∀ p : Props, p.Path = none → p.oneway = none → parsePath p = ⟨true, true⟩) ∧
    (∀ p : Props, ∀ s, p.Path = some s →
      jsToUpper s ≠ "B" → jsToUpper s ≠ "BE" → jsToUpper s ≠ "EB" →
      parsePath p = ⟨false, false⟩) ∧
    (∀ (lvl : ℤ) (sp : ℝ) (seg : (ℝ × ℝ) × (ℝ × ℝ)) (j : NodeId),
      segEdges (⟨true, true⟩ : PathDir) lvl sp seg j =
        (if j = nodeIdOf seg.1 then
          [⟨nodeIdOf seg.2, lvl, calculateDistance seg.1 seg.2 / sp⟩] else []) ++
        (if j = nodeIdOf seg.2 then
          [⟨nodeIdOf seg.1, lvl, calculateDistance seg.1 seg.2 / sp⟩] else []) ∧
      segEdges (⟨false, false⟩ : PathDir) lvl sp seg j = []) := by
  refine ⟨?_, ?_, ?_⟩
  · intro p h1 h2
    unfold parsePath
    rw [h1, h2]
    decide
  · intro p s h1 hB hBE hEB
    unfold parsePath
    rw [h1]
    simp
    exact ⟨⟨hB, hBE⟩, hB, hEB⟩
  · intro lvl sp seg j
    constructor
    · unfold segEdges
      simp
    · unfold segEdges
      simp

/-- C7 witness: the amended theorem applied to concrete properties with an
absent code (giving Both) and to the unrecognized code "N" (giving no
direction at all). -/
theorem claim_C7_witness :
    parsePath (propsSpeed 50) = ⟨true, true⟩ ∧
    parsePath propsPathX = ⟨false, false⟩ :=
  ⟨claim_C7.1 _ rfl rfl,
   claim_C7.2.1 _ ("N") rfl (by decide) (by decide) (by decide)⟩

/-- C1 counterexample: a feature with speed 0 still creates an edge (with
the speed clamped to 1), and a feature with speed 0.5 gets cost
distance/1, not distance/0.5 — contradicting both prongs of the claim. -/
theorem claim_C1_counterexample :
    featSpeed0.props.speed = some 0 ∧
    edgesOfNode (buildRoadGraph ⟨[], []⟩ [featSpeed0]).graph ((0 : ℤ), (0 : ℤ)) =
      [⟨((10 : ℤ), (0 : ℤ)), 0, calculateDistance (0, 0) (10, 0) / 1⟩] ∧
    featSpeedHalf.props.speed = some 0.5 ∧
    edgesOfNode (buildRoadGraph ⟨[], []⟩ [featSpeedHalf]).graph ((0 : ℤ), (0 : ℤ)) =
      [⟨((10 : ℤ), (0 : ℤ)), 0, calculateDistance (0, 0) (10, 0) / 1⟩] ∧
    calculateDistance (0, 0) (10, 0) / 1 ≠ calculateDistance (0, 0) (10, 0) / 0.5 := by
  have hd : calculateDistance ((0 : ℝ), (0 : ℝ)) ((10 : ℝ), (0 : ℝ)) = 10 := by
    unfold calculateDistance
    norm_num
    rw [show (100 : ℝ) = 10 ^ 2 by norm_num, Real.sqrt_sq (by norm_num : (0 : ℝ) ≤ 10)]
  refine ⟨rfl, ?_, rfl, ?_, ?_⟩
  · rw [build_edges]
    simp [expectedEdges, featureEdges, segEdges, consecutivePairs, featSpeed0,
      nodeIdOf, jsRound_lit_0, jsRound_lit_10, speedOf_propsSpeed,
      -Prod.mk_zero_zero,
      show parsePath (propsSpeed 0) = ⟨true, true⟩ from by decide,
      show parseLevel (propsSpeed 0) = 0 from by decide,
      show roadTypeOf (propsSpeed 0) = "" from by decide,
      show max (1 : ℝ) 0 = 1 from by norm_num]
  · rw [build_edges]
    simp [expectedEdges, featureEdges, segEdges, consecutivePairs, featSpeedHalf,
      nodeIdOf, jsRound_lit_0, jsRound_lit_10, speedOf_propsSpeed,
      -Prod.mk_zero_zero,
      show parsePath (propsSpeed 0.5) = ⟨true, true⟩ from by decide,
      show parseLevel (propsSpeed 0.5) = 0 from by decide,
      show roadTypeOf (propsSpeed 0.5) = "" from by decide,
      show max (1 : ℝ) 0.5 = 1 from by norm_num]
  · rw [hd]
    norm_num

/-- C1 amended: every edge of the built graph carries cost
distance / max(1, parseFloat(speed ?? 50)) for its originating segment;
that clamped speed is at least 1, so the cost is at most the distance,
nonnegative, and strictly positive exactly when the segment has distinct
endpoints.  Edges are created regardless of the raw speed value. -/
theorem claim_C1 (prior : BuildState) (fs : List Feature) (j : NodeId) (e : Edge)
    (he : e ∈ edgesOfNode (buildRoadGraph prior fs).graph j) :
    ∃ f ∈ fs, ∃ seg ∈ consecutivePairs f.coords,
      e.cost = calculateDistance seg.1 seg.2 / speedOf f.props ∧
      1 ≤ speedOf f.props ∧
      0 ≤ e.cost ∧
      e.cost ≤ calculateDistance seg.1 seg.2 ∧
      (seg.1 ≠ seg.2 → 0 < e.cost) := by
  rw [build_edges] at he
  rcases (mem_expectedEdges _ _ _).mp he with ⟨f, hf, hfe⟩
  rcases (mem_featureEdges _ _ _).mp hfe with ⟨_, _, _, seg, hseg, hse⟩
  have hsp1 : (1 : ℝ) ≤ speedOf f.props := one_le_speedOf _
  have hsppos : (0 : ℝ) < speedOf f.props := lt_of_lt_of_le one_pos hsp1
  have hdist : 0 ≤ calculateDistance seg.1 seg.2 := calculateDistance_nonneg _ _
  refine ⟨f, hf, seg, hseg, ?_⟩
  have hcost : e.cost = calculateDistance seg.1 seg.2 / speedOf f.props := by
    rcases (mem_segEdges _ _ _ _ _ _).mp hse with ⟨_, _, hee⟩ | ⟨_, _, hee⟩ <;>
      rw [hee]
  refine ⟨hcost, hsp1, ?_, ?_, ?_⟩
  · rw [hcost]
    exact div_nonneg hdist (le_of_lt hsppos)
  · rw [hcost]
    exact div_le_self hdist hsp1
  · intro hne
    rw [hcost]
    exact div_pos (calculateDistance_pos _ _ hne) hsppos

/-- C1 witness: the amended theorem applied to the speed-0 feature's single
edge. -/
theorem claim_C1_witness :
    ∃ f ∈ [featSpeed0], ∃ seg ∈ consecutivePairs f.coords,
      (⟨((10 : ℤ), (0 : ℤ)), 0, calculateDistance (0, 0) (10, 0) / 1⟩ : Edge).cost =
        calculateDistance seg.1 seg.2 / speedOf f.props ∧
      1 ≤ speedOf f.props ∧
      (0 : ℝ) ≤ (⟨((10 : ℤ), (0 : ℤ)), 0, calculateDistance (0, 0) (10, 0) / 1⟩ : Edge).cost ∧
      (⟨((10 : ℤ), (0 : ℤ)), 0, calculateDistance (0, 0) (10, 0) / 1⟩ : Edge).cost ≤
        calculateDistance seg.1 seg.2 ∧
      (seg.1 ≠ seg.2 →
        0 < (⟨((10 : ℤ), (0 : ℤ)), 0, calculateDistance (0, 0) (10, 0) / 1⟩ : Edge).cost) := by
  apply claim_C1 ⟨[], []⟩ [featSpeed0] ((0 : ℤ), (0 : ℤ))
  rw [build_edges]
  simp [expectedEdges, featureEdges, segEdges, consecutivePairs, featSpeed0,
    nodeIdOf, jsRound_lit_0, jsRound_lit_10, speedOf_propsSpeed,
    -Prod.mk_zero_zero,
    show parsePath (propsSpeed 0) = ⟨true, true⟩ from by decide,
    show parseLevel (propsSpeed 0) = 0 from by decide,
    show roadTypeOf (propsSpeed 0) = "" from by decide,
    show max (1 : ℝ) 0 = 1 from by norm_num]

/-- C5 counterexample: the node (10,0) is present in the graph built from a
single forward-only segment, but it has no outgoing edges, so the
degenerate route query on it returns the no-outgoing-edges failure with an
empty path instead of the claimed single-point found route. -/
theorem claim_C5_counterexample :
    getNode gBE ((10 : ℤ), (0 : ℤ)) = some ⟨10, 0, []⟩ ∧
    calculatePath gBE ((10 : ℤ), (0 : ℤ)) ((10 : ℤ), (0 : ℤ)) =
      ⟨[], 0, 0, "Start node has no outgoing edges."⟩ := by
  have hget : getNode gBE ((10 : ℤ), (0 : ℤ)) = some ⟨10, 0, []⟩ := by
    rw [gBE_eq]
    simp [getNode, -Prod.mk_zero_zero]
  refine ⟨hget, ?_⟩
  unfold calculatePath
  rw [hget]
  dsimp only
  simp [firstDedup]

/-- C5 amended: for every graph and every node that is present and has at
least one outgoing edge, the degenerate query start = end returns the
single-point path holding that node's coordinate, total cost 0, distance 0
and the route-found message (the search loop runs, but its first iteration
immediately finalizes the destination). -/
theorem claim_C5 (g : Graph) (x : NodeId) (n : Node)
    (h : getNode g x = some n) (hne : n.edges ≠ []) :
    calculatePath g x x = ⟨[(n.x, n.z)], 0, 0, "Route found."⟩ :=
  calculatePath_self_node g x n h hne

/-- C5 witness: the amended theorem applied to the edge-bearing node (0,0)
of the forward-only graph. -/
theorem claim_C5_witness :
    calculatePath gBE ((0 : ℤ), (0 : ℤ)) ((0 : ℤ), (0 : ℤ)) =
      ⟨[((0 : ℝ), (0 : ℝ))], 0, 0, "Route found."⟩ := by
  have h := claim_C5 gBE ((0 : ℤ), (0 : ℤ))
    ⟨0, 0, [⟨((10 : ℤ), (0 : ℤ)), 0, calculateDistance (0, 0) (10, 0) / 50⟩]⟩
    (by rw [gBE_eq]; simp [getNode, -Prod.mk_zero_zero]) (by simp)
  simpa using h

/-- C6: every query defect is reported as an ordinary return value with an
empty path: an absent id gives the node-not-found message, a start node
without outgoing edges gives the distinct no-route message, and an
unreachable destination gives the no-path message.  (In this embedding
`calculatePath` is a total function, so no exception can be thrown.) -/
theorem claim_C6 :
    (∀ (g : Graph) (s t : NodeId), getNode g s = none ∨ getNode g t = none →
      calculatePath g s t = ⟨[], 0, 0, "Start or end node not found."⟩) ∧
    (∀ (g : Graph) (s t : NodeId) (sn tn : Node), getNode g s = some sn →
      getNode g t = some tn → sn.edges = [] →
      calculatePath g s t = ⟨[], 0, 0, "Start node has no outgoing edges."⟩) ∧
    (∀ (g : Graph) (s t : NodeId) (sn tn : Node), getNode g s = some sn →
      getNode g t = some tn → sn.edges ≠ [] → ¬ Reaches g s t →
      calculatePath g s t = ⟨[], 0, 0, "No path found."⟩) := by
  refine ⟨?_, ?_, ?_⟩
  · intro g s t h
    unfold calculatePath
    cases hs : getNode g s with
    | none => rfl
    | some sn =>
      cases ht : getNode g t with
      | none => rfl
      | some tn =>
        exfalso
        rcases h with h | h
        · rw [hs] at h; cases h
        · rw [ht] at h; cases h
  · intro g s t sn tn hs ht hempty
    unfold calculatePath
    rw [hs, ht]
    dsimp only
    simp [hempty, firstDedup]
  · intro g s t sn tn hs ht hne hur
    exact calculatePath_unreachable g s t sn tn hs ht hne hur

/-- C6 witness: the three failure modes observed on the two-component
graph: an id absent from the graph, the edgeless node (10,0) as start, and
a destination in the other component. -/
theorem claim_C6_witness :
    calculatePath gDisj ((500 : ℤ), (500 : ℤ)) ((0 : ℤ), (0 : ℤ)) =
      ⟨[], 0, 0, "Start or end node not found."⟩ ∧
    calculatePath gDisj ((10 : ℤ), (0 : ℤ)) ((0 : ℤ), (0 : ℤ)) =
      ⟨[], 0, 0, "Start node has no outgoing edges."⟩ ∧
    calculatePath gDisj ((0 : ℤ), (0 : ℤ)) ((100 : ℤ), (0 : ℤ)) =
      ⟨[], 0, 0, "No path found."⟩ := by
  have hA : getNode gDisj ((0 : ℤ), (0 : ℤ)) =
      some ⟨0, 0, [⟨((10 : ℤ), (0 : ℤ)), 0, calculateDistance (0, 0) (10, 0) / 50⟩]⟩ := by
    rw [gDisj_eq]; simp [getNode, -Prod.mk_zero_zero]
  have hB : getNode gDisj ((10 : ℤ), (0 : ℤ)) = some ⟨10, 0, []⟩ := by
    rw [gDisj_eq]; simp [getNode, -Prod.mk_zero_zero]
  have hC : getNode gDisj ((100 : ℤ), (0 : ℤ)) =
      some ⟨100, 0, [⟨((110 : ℤ), (0 : ℤ)), 0, calculateDistance (100, 0) (110, 0) / 50⟩]⟩ := by
    rw [gDisj_eq]; simp [getNode, -Prod.mk_zero_zero]
  have hAedges : edgesOfNode gDisj ((0 : ℤ), (0 : ℤ)) =
      [⟨((10 : ℤ), (0 : ℤ)), 0, calculateDistance (0, 0) (10, 0) / 50⟩] := by
    rw [gDisj_eq]; simp [edgesOfNode, getNode, -Prod.mk_zero_zero]
  have hBedges : edgesOfNode gDisj ((10 : ℤ), (0 : ℤ)) = [] := by
    rw [gDisj_eq]; simp [edgesOfNode, getNode, -Prod.mk_zero_zero]
  refine ⟨?_, ?_, ?_⟩
  · apply claim_C6.1
    left
    rw [gDisj_eq]
    simp [getNode, -Prod.mk_zero_zero]
  · exact claim_C6.2.1 gDisj _ _ _ _ hB hA rfl
  · refine claim_C6.2.2 gDisj _ _ _ _ hA hC (by simp) ?_
    have hreach : ∀ x, Reaches gDisj ((0 : ℤ), (0 : ℤ)) x →
        x = ((0 : ℤ), (0 : ℤ)) ∨ x = ((10 : ℤ), (0 : ℤ)) := by
      intro x h
      induction h with
      | refl => exact Or.inl rfl
      | tail hab hstep ih =>
        obtain ⟨e, he, hto⟩ := hstep
        rcases ih with hb | hb
        · rw [hb, hAedges] at he
          simp at he
          rw [← hto, he]
          exact Or.inr rfl
        · rw [hb, hBedges] at he
          cases he
    intro hcon
    rcases hreach _ hcon with h | h <;> simp at h

/-- C10: for the unrecognized-directionality feature, the nearest-node
query snaps to the recorded segment and returns the id (0,0) even though
graph construction created no such node, so the immediately following
route query fails with the node-not-found status. -/
theorem claim_C10 :
    findNearestNode (buildRoadGraph ⟨[], []⟩ [featPathX]).graph
        (buildRoadGraph ⟨[], []⟩ [featPathX]).segments (1, 1) =
      some ((0 : ℤ), (0 : ℤ)) ∧
    getNode (buildRoadGraph ⟨[], []⟩ [featPathX]).graph ((0 : ℤ), (0 : ℤ)) = none ∧
    (∀ t : NodeId, calculatePath (buildRoadGraph ⟨[], []⟩ [featPathX]).graph
        ((0 : ℤ), (0 : ℤ)) t = ⟨[], 0, 0, "Start or end node not found."⟩) := by
  have hseg : pointToSegmentDistance (1, 1) (0, 0) (10, 0) = 1 := by
    unfold pointToSegmentDistance calculateDistance
    norm_num
  have hstart : calculateDistance ((1 : ℝ), (1 : ℝ)) ((0 : ℝ), (0 : ℝ)) = Real.sqrt 2 := by
    unfold calculateDistance
    norm_num
  have hstop : calculateDistance ((1 : ℝ), (1 : ℝ)) ((10 : ℝ), (0 : ℝ)) = Real.sqrt 82 := by
    unfold calculateDistance
    norm_num
  rw [stPathX_eq]
  dsimp only
  refine ⟨?_, by simp [getNode, -Prod.mk_zero_zero], ?_⟩
  · unfold findNearestNode bestSegment
    simp only [List.foldl_cons, List.foldl_nil]
    unfold bestSegmentStep
    simp only [show (!isRamp ("") && !isHighway ("")) = true from by decide,
      Bool.true_eq_false, if_false, hseg]
    rw [if_pos (by unfold MAX_DISTANCE; norm_num)]
    dsimp only
    rw [hstart, hstop,
      if_pos (Real.sqrt_le_sqrt (by norm_num : (2 : ℝ) ≤ 82))]
  · intro t
    unfold calculatePath
    simp [getNode, -Prod.mk_zero_zero]

/-- C3: directionality is enforced at edge-creation time: the parsed "BE"
code allows only the forward direction and contributes exactly one
directed edge start→end per segment, "EB" only the backward edge end→start,
and "B" both; the built graph's edge lists are exactly those dictated this
way; and routing backward when the target is connected only through a
forward-only segment fails with the no-path result. -/
theorem claim_C3 :
    (∀ p : Props, (p.Path.orElse fun _ => p.oneway) = some ("BE") →
      parsePath p = ⟨true, false⟩) ∧
    (∀ p : Props, (p.Path.orElse fun _ => p.oneway) = some ("EB") →
      parsePath p = ⟨false, true⟩) ∧
    (∀ p : Props, (p.Path.orElse fun _ => p.oneway) = some ("B") →
      parsePath p = ⟨true, true⟩) ∧
    (∀ (lvl : ℤ) (sp : ℝ) (seg : (ℝ × ℝ) × (ℝ × ℝ)) (j : NodeId),
      segEdges (⟨true, false⟩ : PathDir) lvl sp seg j =
        (if j = nodeIdOf seg.1 then
          [⟨nodeIdOf seg.2, lvl, calculateDistance seg.1 seg.2 / sp⟩] else []) ∧
      segEdges (⟨false, true⟩ : PathDir) lvl sp seg j =
        (if j = nodeIdOf seg.2 then
          [⟨nodeIdOf seg.1, lvl, calculateDistance seg.1 seg.2 / sp⟩] else [])) ∧
    (∀ (prior : BuildState) (fs : List Feature) (j : NodeId),
      edgesOfNode (buildRoadGraph prior fs).graph j = expectedEdges fs j) ∧
    calculatePath gChain ((10 : ℤ), (0 : ℤ)) ((0 : ℤ), (0 : ℤ)) =
      ⟨[], 0, 0, "No path found."⟩ := by
  have hChainA : getNode gChain ((0 : ℤ), (0 : ℤ)) =
      some ⟨0, 0, [⟨((10 : ℤ), (0 : ℤ)), 0, calculateDistance (0, 0) (10, 0) / 50⟩]⟩ := by
    rw [gChain_eq]; simp [getNode, -Prod.mk_zero_zero]
  have hChainB : getNode gChain ((10 : ℤ), (0 : ℤ)) =
      some ⟨10, 0, [⟨((20 : ℤ), (0 : ℤ)), 0, calculateDistance (10, 0) (20, 0) / 50⟩]⟩ := by
    rw [gChain_eq]; simp [getNode, -Prod.mk_zero_zero]
  have hBedges : edgesOfNode gChain ((10 : ℤ), (0 : ℤ)) =
      [⟨((20 : ℤ), (0 : ℤ)), 0, calculateDistance (10, 0) (20, 0) / 50⟩] := by
    unfold edgesOfNode
    rw [hChainB]
  have hCedges : edgesOfNode gChain ((20 : ℤ), (0 : ℤ)) = [] := by
    rw [gChain_eq]; simp [edgesOfNode, getNode, -Prod.mk_zero_zero]
  refine ⟨?_, ?_, ?_, ?_, build_edges, ?_⟩
  · intro p h
    unfold parsePath
    rw [h]
    decide
  · intro p h
    unfold parsePath
    rw [h]
    decide
  · intro p h
    unfold parsePath
    rw [h]
    decide
  · intro lvl sp seg j
    constructor <;> simp [segEdges]
  · apply calculatePath_no_path_inv gChain _ _ _ _ hChainB hChainA (by simp)
      (fun k => k = (((10 : ℤ), (0 : ℤ)), (0 : ℤ)) ∨ k = (((20 : ℤ), (0 : ℤ)), (0 : ℤ)))
    · intro a l e hP he hcon
      rcases hP with h | h
      · obtain ⟨ha, hl⟩ := Prod.mk.injEq _ _ _ _ ▸ h
        rw [ha, hBedges] at he
        simp at he
        rw [he]
        exact Or.inr rfl
      · obtain ⟨ha, hl⟩ := Prod.mk.injEq _ _ _ _ ▸ h
        rw [ha, hCedges] at he
        cases he
    · intro a l hP
      rcases hP with h | h <;>
        · obtain ⟨ha, _⟩ := Prod.mk.injEq _ _ _ _ ▸ h
          rw [ha]
          decide
    · intro l hl
      simp [firstDedup] at hl
      rw [hl]
      exact Or.inl rfl

/-- C2: the level rule of the search.  `levelsCanConnect` holds exactly for
level differences of at most one; every state pushed by the edge-expansion
fold comes from an edge passing that test and is the state
(edge target, edge level) with accumulated cost; the initial levels are
the distinct levels of the start node's outgoing edges (first-occurrence
deduplication, no duplicates, same members); a direct hop between edges of
levels 0 and 2 fails with no path, while the same endpoints joined through
an intermediate level-1 edge are found. -/
theorem claim_C2 :
    (∀ l1 l2 : ℤ, levelsCanConnect l1 l2 = true ↔ |l1 - l2| ≤ 1) ∧
    (∀ (g : Graph) (ec : ℝ × ℝ) (vis : List StateKey) (ci : NodeId) (cl : ℤ)
      (cg : ℝ) (edges : List Edge) (gs : List (StateKey × ℝ))
      (cf : List (StateKey × StateKey)) (fr : Frontier),
      fr ∈ (edges.foldl (expandEdge g ec vis ci cl cg) ⟨gs, cf, []⟩).pushes →
      ∃ e ∈ edges, levelsCanConnect cl e.level = true ∧ fr.nodeId = e.toId ∧
        fr.level = e.level ∧ fr.gScore = cg + e.cost) ∧
    (∀ l : List ℤ, (firstDedup l).Nodup ∧ ∀ x, x ∈ firstDedup l ↔ x ∈ l) ∧
    calculatePath gLvlFail ((0 : ℤ), (0 : ℤ)) ((30 : ℤ), (0 : ℤ)) =
      ⟨[], 0, 0, "No path found."⟩ ∧
    calculatePath gLvlOk ((0 : ℤ), (0 : ℤ)) ((30 : ℤ), (0 : ℤ)) =
      ⟨[((0 : ℝ), (0 : ℝ)), ((10 : ℝ), (0 : ℝ)), ((20 : ℝ), (0 : ℝ)), ((30 : ℝ), (0 : ℝ))],
        calculateDistance (0, 0) (10, 0) / 50 + calculateDistance (10, 0) (20, 0) / 50 +
          calculateDistance (20, 0) (30, 0) / 50,
        calculateDistance (0, 0) (10, 0) +
          (calculateDistance (10, 0) (20, 0) + calculateDistance (20, 0) (30, 0)),
        "Route found."⟩ := by
  have hFailA : getNode gLvlFail ((0 : ℤ), (0 : ℤ)) =
      some ⟨0, 0, [⟨((10 : ℤ), (0 : ℤ)), 0, calculateDistance (0, 0) (10, 0) / 50⟩]⟩ := by
    rw [gLvlFail_eq]; simp [getNode, -Prod.mk_zero_zero]
  have hFailC : getNode gLvlFail ((30 : ℤ), (0 : ℤ)) = some ⟨30, 0, []⟩ := by
    rw [gLvlFail_eq]; simp [getNode, -Prod.mk_zero_zero]
  have hFailAedges : edgesOfNode gLvlFail ((0 : ℤ), (0 : ℤ)) =
      [⟨((10 : ℤ), (0 : ℤ)), 0, calculateDistance (0, 0) (10, 0) / 50⟩] := by
    unfold edgesOfNode
    rw [hFailA]
  have hFailBedges : edgesOfNode gLvlFail ((10 : ℤ), (0 : ℤ)) =
      [⟨((30 : ℤ), (0 : ℤ)), 2, calculateDistance (10, 0) (30, 0) / 50⟩] := by
    rw [gLvlFail_eq]; simp [edgesOfNode, getNode, -Prod.mk_zero_zero]
  refine ⟨?_, ?_, ?_, ?_, ?_⟩
  · intro l1 l2
    unfold levelsCanConnect
    exact decide_eq_true_iff
  · intro g ec vis ci cl cg edges gs cf fr hfr
    rcases expand_foldl_pushes_sound g ec vis ci cl cg edges ⟨gs, cf, []⟩ fr hfr with
      h | ⟨e, he, hl, hfr'⟩
    · cases h
    · exact ⟨e, he, hl, by rw [hfr'], by rw [hfr'], by rw [hfr']⟩
  · intro l
    exact ⟨firstDedup_nodup l, fun x => mem_firstDedup x l⟩
  · apply calculatePath_no_path_inv gLvlFail _ _ _ _ hFailA hFailC (by simp)
      (fun k => k = (((0 : ℤ), (0 : ℤ)), (0 : ℤ)) ∨ k = (((10 : ℤ), (0 : ℤ)), (0 : ℤ)))
    · intro a l e hP he hcon
      rcases hP with h | h
      · obtain ⟨ha, hl⟩ := Prod.mk.injEq _ _ _ _ ▸ h
        rw [ha, hFailAedges] at he
        simp at he
        rw [he]
        exact Or.inr rfl
      · obtain ⟨ha, hl⟩ := Prod.mk.injEq _ _ _ _ ▸ h
        rw [ha, hFailBedges] at he
        simp at he
        rw [he] at hcon
        rw [hl] at hcon
        exact absurd hcon (by decide)
    · intro a l hP
      rcases hP with h | h <;>
        · obtain ⟨ha, _⟩ := Prod.mk.injEq _ _ _ _ ▸ h
          rw [ha]
          decide
    · intro l hl
      simp [firstDedup] at hl
      rw [hl]
      exact Or.inl rfl
  · rw [gLvlOk_eq]
    unfold calculatePath
    norm_num [getNode, firstDedup, List.isEmpty, graphFuel, -Prod.mk_zero_zero]
    rw [show (81 : ℕ) = 80 + 1 from rfl, aStarLoop_succ]
    norm_num [sortByF, insertByF, expandEdge, alistFind, alistSet, getNode,
      -Prod.mk_zero_zero, show levelsCanConnect 0 0 = true from by decide]
    rw [show (80 : ℕ) = 79 + 1 from rfl, aStarLoop_succ]
    norm_num [sortByF, insertByF, expandEdge, alistFind, alistSet, getNode,
      -Prod.mk_zero_zero, show levelsCanConnect 0 1 = true from by decide]
    rw [show (79 : ℕ) = 78 + 1 from rfl, aStarLoop_succ]
    norm_num [sortByF, insertByF, expandEdge, alistFind, alistSet, getNode,
      -Prod.mk_zero_zero, show levelsCanConnect 1 2 = true from by decide]
    rw [show (78 : ℕ) = 77 + 1 from rfl, aStarLoop_succ]
    norm_num [sortByF, insertByF, alistFind, getNode, reconstructPath_step,
      pathDistance, -Prod.mk_zero_zero]

lemma sqrt_25_eq : Real.sqrt 25 = 5 := by
  rw [show (25 : ℝ) = 5 ^ 2 by norm_num, Real.sqrt_sq (by norm_num : (0 : ℝ) ≤ 5)]

lemma sqrt_4_eq : Real.sqrt 4 = 2 := by
  rw [show (4 : ℝ) = 2 ^ 2 by norm_num, Real.sqrt_sq (by norm_num : (0 : ℝ) ≤ 2)]

lemma ptsd_ord_eq : pointToSegmentDistance (0, 0) (-10, 5) (10, 5) = 5 := by
  unfold pointToSegmentDistance calculateDistance
  norm_num [sqrt_25_eq]

lemma ptsd_ramp_eq : pointToSegmentDistance (0, 0) (-10, 2) (10, 2) = 2 := by
  unfold pointToSegmentDistance calculateDistance
  norm_num [sqrt_4_eq]

lemma dist_ord_start : calculateDistance ((0 : ℝ), (0 : ℝ)) ((-10 : ℝ), (5 : ℝ)) =
    Real.sqrt 125 := by
  unfold calculateDistance
  norm_num

lemma dist_ord_stop : calculateDistance ((0 : ℝ), (0 : ℝ)) ((10 : ℝ), (5 : ℝ)) =
    Real.sqrt 125 := by
  unfold calculateDistance
  norm_num

lemma dist_ramp_start : calculateDistance ((0 : ℝ), (0 : ℝ)) ((-10 : ℝ), (2 : ℝ)) =
    Real.sqrt 104 := by
  unfold calculateDistance
  norm_num

lemma dist_ramp_stop : calculateDistance ((0 : ℝ), (0 : ℝ)) ((10 : ℝ), (2 : ℝ)) =
    Real.sqrt 104 := by
  unfold calculateDistance
  norm_num

/-- C4: the three-tier snapping cascade.  Whenever some segment that is
neither ramp nor highway lies within the snap radius, the returned node is
an endpoint (the one closer to the query) of a tier-1 segment of minimal
clamped point-to-segment distance; concretely, with an ordinary road at
distance 5 and a strictly closer ramp at distance 2 the ordinary road's
endpoint is returned, and with only the ramp present the query falls
through to the last tier and snaps to the ramp. -/
theorem claim_C4 :
    (∀ (g : Graph) (segs : List Segment) (target : ℝ × ℝ) (s1 : Segment),
      s1 ∈ segs → (!isRamp s1.roadType && !isHighway s1.roadType) = true →
      pointToSegmentDistance target s1.segStart s1.segEnd ≤ MAX_DISTANCE →
      ∃ b ∈ segs, (!isRamp b.roadType && !isHighway b.roadType) = true ∧
        (∀ s ∈ segs, (!isRamp s.roadType && !isHighway s.roadType) = true →
          pointToSegmentDistance target b.segStart b.segEnd ≤
            pointToSegmentDistance target s.segStart s.segEnd) ∧
        findNearestNode g segs target =
          (if calculateDistance target b.segStart ≤ calculateDistance target b.segEnd
           then some b.startId else some b.endId)) ∧
    findNearestNode (buildRoadGraph ⟨[], []⟩ [featOrd, featRamp]).graph
      (buildRoadGraph ⟨[], []⟩ [featOrd, featRamp]).segments (0, 0) =
      some ((-10 : ℤ), (5 : ℤ)) ∧
    findNearestNode (buildRoadGraph ⟨[], []⟩ [featRamp]).graph
      (buildRoadGraph ⟨[], []⟩ [featRamp]).segments (0, 0) =
      some ((-10 : ℤ), (2 : ℤ)) := by
  refine ⟨?_, ?_, ?_⟩
  · intro g segs target s1 hmem hfilt h30
    cases ht1 : bestSegment target segs
        (fun s => !isRamp s.roadType && !isHighway s.roadType) with
    | none =>
      exact absurd h30 ((bestSegment_spec target segs _).2 ht1 s1 hmem hfilt)
    | some p =>
      obtain ⟨b, bd⟩ := p
      obtain ⟨hbmem, hbfilt, hbd, _, hmin⟩ :=
        (bestSegment_spec target segs _).1 b bd ht1
      refine ⟨b, hbmem, hbfilt, ?_, ?_⟩
      · intro s hs hf
        have := hmin s hs hf
        rw [hbd] at this
        exact this
      · unfold findNearestNode
        rw [ht1]
  · rw [segsC4_eq]
    unfold findNearestNode bestSegment
    simp only [List.foldl_cons, List.foldl_nil]
    unfold bestSegmentStep
    simp only [show (!isRamp ("road") && !isHighway ("road")) = true from by decide,
      show (!isRamp ("ramp") && !isHighway ("ramp")) = false from by decide,
      Bool.true_eq_false, if_false, if_true, ptsd_ord_eq]
    rw [if_pos (by unfold MAX_DISTANCE; norm_num : (5 : ℝ) ≤ MAX_DISTANCE)]
    dsimp only
    rw [dist_ord_start, dist_ord_stop, if_pos le_rfl]
  · rw [segsRamp_eq]
    unfold findNearestNode bestSegment
    simp only [List.foldl_cons, List.foldl_nil]
    unfold bestSegmentStep
    simp only [show (!isRamp ("ramp") && !isHighway ("ramp")) = false from by decide,
      show (!isRamp ("ramp")) = false from by decide,
      Bool.true_eq_false, Bool.false_and, if_false, if_true, eq_self_iff_true,
      ptsd_ramp_eq,
      show ((2 : ℝ) ≤ MAX_DISTANCE) = True from
        eq_true (by unfold MAX_DISTANCE; norm_num),
      dist_ramp_start, dist_ramp_stop,
      show (Real.sqrt 104 ≤ Real.sqrt 104) = True from eq_true le_rfl]

lemma sqrt_6400_eq : Real.sqrt 6400 = 80 := by
  rw [show (6400 : ℝ) = 80 ^ 2 by norm_num, Real.sqrt_sq (by norm_num : (0 : ℝ) ≤ 80)]

lemma sqrt_9_eq : Real.sqrt 9 = 3 := by
  rw [show (9 : ℝ) = 3 ^ 2 by norm_num, Real.sqrt_sq (by norm_num : (0 : ℝ) ≤ 3)]

lemma dist_0_80_eq : calculateDistance ((0 : ℝ), (0 : ℝ)) ((80 : ℝ), (0 : ℝ)) = 80 := by
  unfold calculateDistance
  norm_num [sqrt_6400_eq]

lemma dist_frac1_eq : calculateDistance ((0 : ℝ), (0 : ℝ)) ((0.6 : ℝ), (0 : ℝ)) = 0.6 := by
  unfold calculateDistance
  norm_num [sqrt_9_eq, sqrt_25_eq]

lemma dist_frac2_eq : calculateDistance ((1.4 : ℝ), (0 : ℝ)) ((2 : ℝ), (0 : ℝ)) = 0.6 := by
  unfold calculateDistance
  norm_num [sqrt_9_eq, sqrt_25_eq]

lemma dist_0_2_eq : calculateDistance ((0 : ℝ), (0 : ℝ)) ((2 : ℝ), (0 : ℝ)) = 2 := by
  unfold calculateDistance
  norm_num [sqrt_4_eq]

/-- C8 counterexample: the /80 heuristic is not admissible for every built
graph.  First, a single segment with speed 800 has true traversal cost
80/800 while the heuristic at its start is 80/80.  Second, even with
modest speeds, fractional coordinates make rounded node positions diverge
from segment endpoints: two collinear segments of exact length 0.6 connect
the nodes (0,0) and (2,0) at total cost 1.2/50 = 0.024, while the
heuristic reads 2/80 = 0.025 from the stored node coordinates. -/
theorem claim_C8_counterexample :
    (IsWalk gFast ((0 : ℤ), (0 : ℤ))
        [⟨((80 : ℤ), (0 : ℤ)), 0, calculateDistance (0, 0) (80, 0) / 800⟩]
        ((80 : ℤ), (0 : ℤ)) ∧
      getNode gFast ((80 : ℤ), (0 : ℤ)) =
        some ⟨80, 0, [⟨((0 : ℤ), (0 : ℤ)), 0, calculateDistance (0, 0) (80, 0) / 800⟩]⟩ ∧
      walkCost [⟨((80 : ℤ), (0 : ℤ)), 0, calculateDistance (0, 0) (80, 0) / 800⟩] <
        heuristic gFast ((80 : ℝ), (0 : ℝ)) ((0 : ℤ), (0 : ℤ))) ∧
    (IsWalk gFrac ((0 : ℤ), (0 : ℤ))
        [⟨((1 : ℤ), (0 : ℤ)), 0, calculateDistance (0, 0) (0.6, 0) / 50⟩,
         ⟨((2 : ℤ), (0 : ℤ)), 0, calculateDistance (1.4, 0) (2, 0) / 50⟩]
        ((2 : ℤ), (0 : ℤ)) ∧
      getNode gFrac ((2 : ℤ), (0 : ℤ)) =
        some ⟨2, 0, [⟨((1 : ℤ), (0 : ℤ)), 0, calculateDistance (1.4, 0) (2, 0) / 50⟩]⟩ ∧
      walkCost [⟨((1 : ℤ), (0 : ℤ)), 0, calculateDistance (0, 0) (0.6, 0) / 50⟩,
          ⟨((2 : ℤ), (0 : ℤ)), 0, calculateDistance (1.4, 0) (2, 0) / 50⟩] <
        heuristic gFrac ((2 : ℝ), (0 : ℝ)) ((0 : ℤ), (0 : ℤ))) := by
  have hFastA : getNode gFast ((0 : ℤ), (0 : ℤ)) =
      some ⟨0, 0, [⟨((80 : ℤ), (0 : ℤ)), 0, calculateDistance (0, 0) (80, 0) / 800⟩]⟩ := by
    rw [gFast_eq]; simp [getNode, -Prod.mk_zero_zero]
  have hFastB : getNode gFast ((80 : ℤ), (0 : ℤ)) =
      some ⟨80, 0, [⟨((0 : ℤ), (0 : ℤ)), 0, calculateDistance (0, 0) (80, 0) / 800⟩]⟩ := by
    rw [gFast_eq]; simp [getNode, -Prod.mk_zero_zero]
  have hFracA : getNode gFrac ((0 : ℤ), (0 : ℤ)) =
      some ⟨0, 0, [⟨((1 : ℤ), (0 : ℤ)), 0, calculateDistance (0, 0) (0.6, 0) / 50⟩]⟩ := by
    rw [gFrac_eq]; simp [getNode, -Prod.mk_zero_zero]
  have hFracM : getNode gFrac ((1 : ℤ), (0 : ℤ)) =
      some ⟨0.6, 0, [⟨((0 : ℤ), (0 : ℤ)), 0, calculateDistance (0, 0) (0.6, 0) / 50⟩,
        ⟨((2 : ℤ), (0 : ℤ)), 0, calculateDistance (1.4, 0) (2, 0) / 50⟩]⟩ := by
    rw [gFrac_eq]; simp [getNode, -Prod.mk_zero_zero]
  have hFracC : getNode gFrac ((2 : ℤ), (0 : ℤ)) =
      some ⟨2, 0, [⟨((1 : ℤ), (0 : ℤ)), 0, calculateDistance (1.4, 0) (2, 0) / 50⟩]⟩ := by
    rw [gFrac_eq]; simp [getNode, -Prod.mk_zero_zero]
  refine ⟨⟨?_, hFastB, ?_⟩, ⟨?_, hFracC, ?_⟩⟩
  · refine IsWalk.cons _ _ _ _ ?_ (IsWalk.nil _)
    unfold edgesOfNode
    rw [hFastA]
    simp
  · have hh : heuristic gFast ((80 : ℝ), (0 : ℝ)) ((0 : ℤ), (0 : ℤ)) = 1 := by
      unfold heuristic
      rw [hFastA]
      dsimp only
      rw [dist_0_80_eq]
      norm_num
    have hw : walkCost [(⟨((80 : ℤ), (0 : ℤ)), 0,
        calculateDistance (0, 0) (80, 0) / 800⟩ : Edge)] =
        calculateDistance (0, 0) (80, 0) / 800 := by
      simp [walkCost]
    rw [hh, hw, dist_0_80_eq]
    norm_num
  · refine IsWalk.cons _ _ _ _ ?_ (IsWalk.cons _ _ _ _ ?_ (IsWalk.nil _))
    · unfold edgesOfNode
      rw [hFracA]
      simp
    · unfold edgesOfNode
      rw [hFracM]
      simp
  · have hh : heuristic gFrac ((2 : ℝ), (0 : ℝ)) ((0 : ℤ), (0 : ℤ)) = 2 / 80 := by
      unfold heuristic
      rw [hFracA]
      dsimp only
      rw [dist_0_2_eq]
    have hw : walkCost [(⟨((1 : ℤ), (0 : ℤ)), 0,
          calculateDistance (0, 0) (0.6, 0) / 50⟩ : Edge),
        ⟨((2 : ℤ), (0 : ℤ)), 0, calculateDistance (1.4, 0) (2, 0) / 50⟩] =
        calculateDistance (0, 0) (0.6, 0) / 50 +
          calculateDistance (1.4, 0) (2, 0) / 50 := by
      simp [walkCost]
    rw [hh, hw, dist_frac1_eq, dist_frac2_eq]
    norm_num

/-- C8 amended: the heuristic is admissible for built graphs whose features
all have clamped speed at most 80 and purely integral coordinates (so the
rounded node positions coincide with the true segment endpoints): for
every walk from a node to the destination, the heuristic at that node is a
lower bound on the walk's total cost. -/
theorem claim_C8 (prior : BuildState) (fs : List Feature)
    (hspeed : ∀ f ∈ fs, speedOf f.props ≤ 80)
    (hint : ∀ f ∈ fs, IntegralFeature f) (s t : NodeId) (es : List Edge)
    (en : Node) (hen : getNode (buildRoadGraph prior fs).graph t = some en)
    (hw : IsWalk (buildRoadGraph prior fs).graph s es t) :
    heuristic (buildRoadGraph prior fs).graph (en.x, en.z) s ≤ walkCost es :=
  heuristic_le_walkCost prior fs hspeed hint t en hen es s hw

/-- C8 witness: the amended admissibility theorem applied to the
integral-coordinate speed-50 graph, for the one-edge walk along its
segment. -/
theorem claim_C8_witness :
    heuristic (buildRoadGraph ⟨[], []⟩ [featBE]).graph ((10 : ℝ), (0 : ℝ))
        ((0 : ℤ), (0 : ℤ)) ≤
      walkCost [⟨((10 : ℤ), (0 : ℤ)), 0, calculateDistance (0, 0) (10, 0) / 50⟩] := by
  apply claim_C8 ⟨[], []⟩ [featBE] ?_ ?_ ((0 : ℤ), (0 : ℤ)) ((10 : ℤ), (0 : ℤ)) _
    ⟨10, 0, []⟩ ?_ ?_
  · intro f hf
    simp at hf
    rw [hf]
    unfold featBE
    rw [speedOf_propsDir]
    norm_num
  · intro f hf
    simp at hf
    rw [hf]
    intro c hc
    unfold featBE at hc
    simp at hc
    rcases hc with h | h
    · exact ⟨0, 0, by rw [h]; norm_num⟩
    · exact ⟨10, 0, by rw [h]; norm_num⟩
  · show getNode gBE _ = _
    rw [gBE_eq]
    simp [getNode, -Prod.mk_zero_zero]
  · refine IsWalk.cons _ _ _ _ ?_ (IsWalk.nil _)
    show _ ∈ edgesOfNode gBE _
    unfold edgesOfNode
    rw [show getNode gBE ((0 : ℤ), (0 : ℤ)) = some ⟨0, 0, [⟨((10 : ℤ), (0 : ℤ)), 0,
      calculateDistance (0, 0) (10, 0) / 50⟩]⟩ from by
        rw [gBE_eq]; simp [getNode, -Prod.mk_zero_zero]]
    simp

/-- C2 witness: the level rule evaluated at concrete levels and the
distinct-start-levels property on a concrete level list. -/
theorem claim_C2_witness :
    levelsCanConnect 0 1 = true ∧
    (firstDedup [0, 2, 0]).Nodup ∧
    ((0 : ℤ) ∈ firstDedup [0, 2, 0] ↔ (0 : ℤ) ∈ ([0, 2, 0] : List ℤ)) := by
  exact ⟨(claim_C2.1 0 1).mpr (by norm_num),
    (claim_C2.2.2.1 [0, 2, 0]).1,
    (claim_C2.2.2.1 [0, 2, 0]).2 0⟩

/-- C3 witness: the direction parser applied to the three concrete codes. -/
theorem claim_C3_witness :
    parsePath (propsDir ("BE") ("0")) = ⟨true, false⟩ ∧
    parsePath (propsDir ("EB") ("0")) = ⟨false, true⟩ ∧
    parsePath (propsDir ("B") ("0")) = ⟨true, true⟩ :=
  ⟨claim_C3.1 _ rfl, claim_C3.2.1 _ rfl, claim_C3.2.2.1 _ rfl⟩

def segOrd : Segment :=
  ⟨(-10, 5), (10, 5), ((-10 : ℤ), (5 : ℤ)), ((10 : ℤ), (5 : ℤ)), "road"⟩

def segRamp : Segment :=
  ⟨(-10, 2), (10, 2), ((-10 : ℤ), (2 : ℤ)), ((10 : ℤ), (2 : ℤ)), "ramp"⟩

/-- C4 witness: the tier-1 theorem applied to the concrete pair of an
ordinary segment within radius and a ramp segment. -/
theorem claim_C4_witness :
    ∃ b ∈ [segOrd, segRamp], (!isRamp b.roadType && !isHighway b.roadType) = true ∧
      (∀ s ∈ [segOrd, segRamp], (!isRamp s.roadType && !isHighway s.roadType) = true →
        pointToSegmentDistance (0, 0) b.segStart b.segEnd ≤
          pointToSegmentDistance (0, 0) s.segStart s.segEnd) ∧
      findNearestNode [] [segOrd, segRamp] (0, 0) =
        (if calculateDistance (0, 0) b.segStart ≤ calculateDistance (0, 0) b.segEnd
         then some b.startId else some b.endId) := by
  apply claim_C4.1 [] [segOrd, segRamp] (0, 0) segOrd (by simp) (by decide)
  show pointToSegmentDistance (0, 0) (-10, 5) (10, 5) ≤ MAX_DISTANCE
  rw [ptsd_ord_eq]
  unfold MAX_DISTANCE
  norm_num

end

end MKB
